import Mathlib

/-!
Verification of the SMEL Unified Meta Schema (src/Schema/unified_meta_schema.py)
and the PostgreSQL adapter (src/Schema/adapters/postgresql_adapter.py).

The Python source is shallowly embedded: dataclasses become structures, the
`Relationship` class hierarchy (Reference / Aggregate) becomes a closed
two-constructor inductive, Python dicts become insertion-ordered association
lists (`List (String × _)`), in-place mutation becomes explicit state passing
(a method that mutates its argument returns the updated value), and the JSON
dictionaries produced by `to_dict` become a small JSON value type `J`.

Modelling conventions, noted where they apply:
* `meta_id` fields hold the uuid strings of the source; a freshly drawn
  `uuid.uuid4()` is modelled by the constant `freshId` since no verified
  property depends on the distinctness of freshly generated ids.
* The `Union[EntityType, str]` target fields (`Reference.refs_to`,
  `Aggregate.aggregates`, `RelationshipType.source_entity/target_entity`)
  are modelled as `String`: every consumer in the source collapses the union
  through `get_target_entity_name`/`get_source_name`, and every constructor
  exercised by the verified claims stores the name string.
-/

set_option autoImplicit false

namespace SMEL

/-- `class DatabaseType(str, Enum)`: abstract database model types. -/
inductive DatabaseType
  | RELATIONAL
  | DOCUMENT
  | GRAPH
  | COLUMNAR
deriving DecidableEq, Repr

/-- The `.value` string of each `DatabaseType` member. -/
def DatabaseType.value : DatabaseType → String
  | .RELATIONAL => "relational"
  | .DOCUMENT => "document"
  | .GRAPH => "graph"
  | .COLUMNAR => "columnar"

/-- `DatabaseType(s)`: enum lookup by value; raises (`none`) on an unknown
value (the source does not catch this in `Database.from_dict`). -/
def databaseTypeFromValue (s : String) : Option DatabaseType :=
  if s = "relational" then some .RELATIONAL
  else if s = "document" then some .DOCUMENT
  else if s = "graph" then some .GRAPH
  else if s = "columnar" then some .COLUMNAR
  else none

/-- `class EntityKind(str, Enum)`. -/
inductive EntityKind
  | TABLE
  | DOCUMENT
  | EMBEDDED
  | VERTEX
  | EDGE
  | WIDE_COLUMN_TABLE
deriving DecidableEq, Repr

def EntityKind.value : EntityKind → String
  | .TABLE => "table"
  | .DOCUMENT => "document"
  | .EMBEDDED => "embedded"
  | .VERTEX => "vertex"
  | .EDGE => "edge"
  | .WIDE_COLUMN_TABLE => "wide_column_table"

/-- `EntityKind(s)` wrapped in the `try/except` of `Database._create_entity`:
an unknown value falls back to `TABLE`. -/
def entityKindFromValue (s : String) : EntityKind :=
  if s = "table" then .TABLE
  else if s = "document" then .DOCUMENT
  else if s = "embedded" then .EMBEDDED
  else if s = "vertex" then .VERTEX
  else if s = "edge" then .EDGE
  else if s = "wide_column_table" then .WIDE_COLUMN_TABLE
  else .TABLE

/-- `class PrimitiveType(str, Enum)`: the 18 primitive kinds. -/
inductive PrimitiveType
  | STRING | TEXT | INTEGER | LONG
  | DOUBLE | FLOAT | DECIMAL | BOOLEAN
  | DATE | DATETIME | TIMESTAMP
  | UUID | BINARY | NULL
  | OBJECT_ID | INT32 | INT64 | DECIMAL128
deriving DecidableEq, Repr

def PrimitiveType.value : PrimitiveType → String
  | .STRING => "string"
  | .TEXT => "text"
  | .INTEGER => "integer"
  | .LONG => "long"
  | .DOUBLE => "double"
  | .FLOAT => "float"
  | .DECIMAL => "decimal"
  | .BOOLEAN => "boolean"
  | .DATE => "date"
  | .DATETIME => "datetime"
  | .TIMESTAMP => "timestamp"
  | .UUID => "uuid"
  | .BINARY => "binary"
  | .NULL => "null"
  | .OBJECT_ID => "objectId"
  | .INT32 => "int32"
  | .INT64 => "int64"
  | .DECIMAL128 => "decimal128"

/-- `PrimitiveType(s)` wrapped in the `try/except` of `Database._create_dtype`:
an unknown value falls back to `STRING`. -/
def primitiveTypeFromValue (s : String) : PrimitiveType :=
  if s = "string" then .STRING
  else if s = "text" then .TEXT
  else if s = "integer" then .INTEGER
  else if s = "long" then .LONG
  else if s = "double" then .DOUBLE
  else if s = "float" then .FLOAT
  else if s = "decimal" then .DECIMAL
  else if s = "boolean" then .BOOLEAN
  else if s = "date" then .DATE
  else if s = "datetime" then .DATETIME
  else if s = "timestamp" then .TIMESTAMP
  else if s = "uuid" then .UUID
  else if s = "binary" then .BINARY
  else if s = "null" then .NULL
  else if s = "objectId" then .OBJECT_ID
  else if s = "int32" then .INT32
  else if s = "int64" then .INT64
  else if s = "decimal128" then .DECIMAL128
  else .STRING

/-- `class KeyType(str, Enum)`: key constraint types. -/
inductive KeyType
  | PRIMARY
  | UNIQUE
  | FOREIGN
  | PARTITION
  | CLUSTERING
deriving DecidableEq, Repr

def KeyType.value : KeyType → String
  | .PRIMARY => "PRIMARY"
  | .UNIQUE => "UNIQUE"
  | .FOREIGN => "FOREIGN"
  | .PARTITION => "PARTITION"
  | .CLUSTERING => "CLUSTERING"

/-- `KeyType(s)` wrapped in the `try/except` of `Database._create_key`:
an unknown value falls back to `PRIMARY`. -/
def keyTypeFromValue (s : String) : KeyType :=
  if s = "PRIMARY" then .PRIMARY
  else if s = "UNIQUE" then .UNIQUE
  else if s = "FOREIGN" then .FOREIGN
  else if s = "PARTITION" then .PARTITION
  else if s = "CLUSTERING" then .CLUSTERING
  else .PRIMARY

/-- `class Cardinality(str, Enum)` with values `?`, `&`, `*`, `+`. -/
inductive Cardinality
  | ZERO_TO_ONE
  | ONE_TO_ONE
  | ZERO_TO_MANY
  | ONE_TO_MANY
deriving DecidableEq, Repr

def Cardinality.value : Cardinality → String
  | .ZERO_TO_ONE => "?"
  | .ONE_TO_ONE => "&"
  | .ZERO_TO_MANY => "*"
  | .ONE_TO_MANY => "+"

/-- `Cardinality.from_symbol`: dictionary lookup with default `ONE_TO_ONE`. -/
def Cardinality.from_symbol (s : String) : Cardinality :=
  if s = "?" then .ZERO_TO_ONE
  else if s = "&" then .ONE_TO_ONE
  else if s = "*" then .ZERO_TO_MANY
  else if s = "+" then .ONE_TO_MANY
  else .ONE_TO_ONE

-- ===========================================================================
-- TYPE MAPPINGS (`_TYPE_MAPS` / `_get_native_type`)
-- ===========================================================================

/-- The `_TYPE_MAPS` nested dict literal, entry for entry in source order. -/
def _TYPE_MAPS : List (DatabaseType × List (PrimitiveType × String)) :=
  [ (.RELATIONAL,
     [(.STRING, "VARCHAR(255)"), (.TEXT, "TEXT"), (.INTEGER, "INTEGER"),
      (.LONG, "BIGINT"), (.DOUBLE, "DOUBLE PRECISION"), (.FLOAT, "REAL"),
      (.DECIMAL, "DECIMAL"), (.BOOLEAN, "BOOLEAN"), (.DATE, "DATE"),
      (.DATETIME, "TIMESTAMP"), (.TIMESTAMP, "TIMESTAMP"), (.UUID, "UUID"),
      (.BINARY, "BYTEA"), (.NULL, "NULL"), (.OBJECT_ID, "VARCHAR(24)"),
      (.INT32, "INTEGER"), (.INT64, "BIGINT"), (.DECIMAL128, "DECIMAL")]),
    (.DOCUMENT,
     [(.STRING, "string"), (.TEXT, "string"), (.INTEGER, "int"),
      (.LONG, "long"), (.DOUBLE, "double"), (.FLOAT, "double"),
      (.DECIMAL, "decimal"), (.BOOLEAN, "bool"), (.DATE, "date"),
      (.DATETIME, "date"), (.TIMESTAMP, "timestamp"), (.UUID, "binData"),
      (.BINARY, "binData"), (.NULL, "null"), (.OBJECT_ID, "objectId"),
      (.INT32, "int"), (.INT64, "long"), (.DECIMAL128, "decimal")]),
    (.GRAPH,
     [(.STRING, "String"), (.TEXT, "String"), (.INTEGER, "Integer"),
      (.LONG, "Long"), (.DOUBLE, "Double"), (.FLOAT, "Float"),
      (.DECIMAL, "Double"), (.BOOLEAN, "Boolean"), (.DATE, "Date"),
      (.DATETIME, "DateTime"), (.TIMESTAMP, "DateTime"), (.UUID, "String"),
      (.BINARY, "ByteArray"), (.NULL, "null"), (.OBJECT_ID, "String"),
      (.INT32, "Integer"), (.INT64, "Long"), (.DECIMAL128, "Double")]),
    (.COLUMNAR,
     [(.STRING, "text"), (.TEXT, "text"), (.INTEGER, "int"),
      (.LONG, "bigint"), (.DOUBLE, "double"), (.FLOAT, "float"),
      (.DECIMAL, "decimal"), (.BOOLEAN, "boolean"), (.DATE, "date"),
      (.DATETIME, "timestamp"), (.TIMESTAMP, "timestamp"), (.UUID, "uuid"),
      (.BINARY, "blob"), (.NULL, "text"), (.OBJECT_ID, "text"),
      (.INT32, "int"), (.INT64, "bigint"), (.DECIMAL128, "decimal")]) ]

/-- `_get_native_type(ptype, db) = _TYPE_MAPS[db][ptype]`.  A missing entry
in either dict raises `KeyError` in Python, modelled as `none`. -/
def _get_native_type (ptype : PrimitiveType) (db : DatabaseType) : Option String :=
  match _TYPE_MAPS.find? (fun p => p.1 = db) with
  | none => none
  | some (_, m) => ((m.find? (fun p => p.1 = ptype)).map (fun p => p.2))

-- ===========================================================================
-- DATA TYPES
-- ===========================================================================

/-- The abstract `DataType` hierarchy (`PrimitiveDataType`, `ListDataType`,
`SetDataType`, `MapDataType`) as a closed inductive.  The optional int
fields of `PrimitiveDataType` keep their source defaults (`None`). -/
inductive DataType
  | primitive (primitive_type : PrimitiveType)
      (max_length precision scale : Option Int)
  | list (element_type : DataType)
  | set (element_type : DataType)
  | map (key_type value_type : DataType)
deriving DecidableEq, Repr

/-- Python truthiness of an `Optional[int]`: `None` and `0` are falsy. -/
def truthyInt : Option Int → Bool
  | none => false
  | some n => n != 0

/-- Python truthiness of an `Optional[str]`: `None` and `""` are falsy. -/
def truthyStr : Option String → Bool
  | none => false
  | some s => s != ""

/-- `x or 0` on an `Optional[int]` (used for `self.scale or 0`). -/
def orZero : Option Int → Int
  | none => 0
  | some n => n

/-- `DataType.to_native` for each subclass.  Exceptions (the `KeyError` of
`_get_native_type`) propagate as `none`.  In `MapDataType.to_native` the
non-columnar branch is a dict-of-constants lookup on `db.name` with default
`"JSONB"`; it makes no recursive call, exactly as in the source. -/
def DataType.to_native : DataType → DatabaseType → Option String
  | .primitive pt ml pr sc, db =>
    match _get_native_type pt db with
    | none => none
    | some base =>
      some (if db = .RELATIONAL then
              if pt = .STRING && truthyInt ml then
                "VARCHAR(" ++ toString ((ml.getD 0)) ++ ")"
              else if pt = .DECIMAL && truthyInt pr then
                "DECIMAL(" ++ toString ((pr.getD 0)) ++ "," ++ toString (orZero sc) ++ ")"
              else base
            else base)
  | .list el, db =>
    (el.to_native db).map (fun e =>
      match db with
      | .RELATIONAL => e ++ "[]"
      | .DOCUMENT => "array"
      | .GRAPH => "List<" ++ e ++ ">"
      | .COLUMNAR => "list<" ++ e ++ ">")
  | .set el, db =>
    (el.to_native db).map (fun e =>
      match db with
      | .COLUMNAR => "set<" ++ e ++ ">"
      | .RELATIONAL => e ++ "[]"
      | _ => "array")
  | .map kt vt, db =>
    match db with
    | .COLUMNAR =>
      match kt.to_native db, vt.to_native db with
      | some k, some v => some ("map<" ++ k ++ ", " ++ v ++ ">")
      | _, _ => none
    | .RELATIONAL => some "JSONB"
    | .DOCUMENT => some "object"
    | .GRAPH => some "Map"

-- ===========================================================================
-- SCHEMA ELEMENTS
-- ===========================================================================

/-- Stand-in for `_uid()` (`str(uuid.uuid4())`): fresh ids are modelled by a
constant, since no verified property depends on their distinctness. -/
def freshId : String := "00000000-0000-0000-0000-000000000000"

/-- `@dataclass class Attribute`. -/
structure Attribute where
  attr_name : String
  data_type : DataType
  is_key : Bool := false
  is_optional : Bool := true
  description : Option String := none
  meta_id : String := freshId
deriving DecidableEq, Repr

/-- `@dataclass class Key`. -/
structure Key where
  key_type : KeyType
  key_attributes : List Attribute := []
  is_managed : Bool := true
  referenced_entity : Option String := none
  referenced_attributes : List String := []
deriving DecidableEq, Repr

/-- `Key.add_attribute` sets `attr.is_key = True` (an in-place mutation of
the shared `Attribute` object, modelled by returning the updated attribute)
and appends it to `key_attributes` unless an equal attribute is present. -/
def Key.add_attribute (k : Key) (attr : Attribute) : Key × Attribute :=
  let attr := { attr with is_key := true }
  (if attr ∈ k.key_attributes then k
   else { k with key_attributes := k.key_attributes ++ [attr] }, attr)

/-- `Key.get_attribute_names`. -/
def Key.get_attribute_names (k : Key) : List String :=
  k.key_attributes.map (fun a => a.attr_name)

/-- `Reference(Relationship)`: `refs_to` modelled as the target entity name
(see the header note on `Union[EntityType, str]`). -/
structure Reference where
  cardinality : Cardinality := .ONE_TO_ONE
  is_optional : Bool := true
  description : Option String := none
  meta_id : String := freshId
  ref_name : String := ""
  refs_to : String := ""
  edge_attributes : List Attribute := []
deriving DecidableEq, Repr

/-- `Aggregate(Relationship)` (alias `Embedded`): `aggregates` modelled as
the target entity name. -/
structure Aggregate where
  cardinality : Cardinality := .ONE_TO_ONE
  is_optional : Bool := true
  description : Option String := none
  meta_id : String := freshId
  aggr_name : String := ""
  aggregates : String := ""
deriving DecidableEq, Repr

/-- The abstract `Relationship` base class as a closed sum of its two
subclasses. -/
inductive Relationship
  | ref (r : Reference)
  | agg (a : Aggregate)
deriving DecidableEq, Repr

/-- `Relationship.get_target_entity_name` (each subclass's override). -/
def Relationship.get_target_entity_name : Relationship → String
  | .ref r => r.refs_to
  | .agg a => a.aggregates

/-- `Aggregate.is_array`: `cardinality.is_multiple()`. -/
def Aggregate.is_array (a : Aggregate) : Bool :=
  a.cardinality = .ZERO_TO_MANY || a.cardinality = .ONE_TO_MANY

/-- `@dataclass class StructuralVariation`. -/
structure StructuralVariation where
  variation_id : Int
  attributes : List Attribute := []
  relationships : List Relationship := []
  count : Int := 0
  first_timestamp : Option String := none
  last_timestamp : Option String := none
deriving DecidableEq, Repr

/-- `StructuralVariation.add_attribute`: appends unless an equal attribute
is present. -/
def StructuralVariation.add_attribute (v : StructuralVariation) (attr : Attribute) :
    StructuralVariation :=
  if attr ∈ v.attributes then v
  else { v with attributes := v.attributes ++ [attr] }

/-- `StructuralVariation.add_relationship`. -/
def StructuralVariation.add_relationship (v : StructuralVariation) (rel : Relationship) :
    StructuralVariation :=
  if rel ∈ v.relationships then v
  else { v with relationships := v.relationships ++ [rel] }

/-- `@dataclass class EntityType`. -/
structure EntityType where
  en_name : String
  entity_kind : EntityKind := .TABLE
  is_root : Bool := true
  keys : List Key := []
  attributes : List Attribute := []
  relationships : List Relationship := []
  variations : List StructuralVariation := []
  description : Option String := none
  meta_id : String := freshId
deriving DecidableEq, Repr

/-- `EntityType.add_key`: appends unconditionally. -/
def EntityType.add_key (e : EntityType) (k : Key) : EntityType :=
  { e with keys := e.keys ++ [k] }

/-- `EntityType.get_primary_key`: first key with `key_type == PRIMARY`. -/
def EntityType.get_primary_key (e : EntityType) : Option Key :=
  e.keys.find? (fun k => k.key_type = .PRIMARY)

/-- `EntityType.get_partition_key`. -/
def EntityType.get_partition_key (e : EntityType) : Option Key :=
  e.keys.find? (fun k => k.key_type = .PARTITION)

/-- `EntityType.get_foreign_keys`. -/
def EntityType.get_foreign_keys (e : EntityType) : List Key :=
  e.keys.filter (fun k => k.key_type = .FOREIGN)

/-- `EntityType.add_attribute`: appends unconditionally. -/
def EntityType.add_attribute (e : EntityType) (attr : Attribute) : EntityType :=
  { e with attributes := e.attributes ++ [attr] }

/-- `EntityType.get_attribute`: first attribute with the given name. -/
def EntityType.get_attribute (e : EntityType) (name : String) : Option Attribute :=
  e.attributes.find? (fun a => a.attr_name = name)

/-- `EntityType.add_relationship`: appends unconditionally. -/
def EntityType.add_relationship (e : EntityType) (rel : Relationship) : EntityType :=
  { e with relationships := e.relationships ++ [rel] }

/-- `EntityType.add_variation`. -/
def EntityType.add_variation (e : EntityType) (v : StructuralVariation) : EntityType :=
  { e with variations := e.variations ++ [v] }

/-- `@dataclass class RelationshipType` (graph edge type); source and target
modelled as entity names. -/
structure RelationshipType where
  rel_name : String
  source_entity : String := ""
  target_entity : String := ""
  attributes : List Attribute := []
  cardinality : Cardinality := .ZERO_TO_MANY
  description : Option String := none
  meta_id : String := freshId
deriving DecidableEq, Repr

/-- `RelationshipType.add_attribute`. -/
def RelationshipType.add_attribute (r : RelationshipType) (attr : Attribute) :
    RelationshipType :=
  { r with attributes := r.attributes ++ [attr] }

/-- `@dataclass class Database`.  The Python dicts `entity_types` and
`relationship_types` are insertion-ordered association lists here; dict
assignment is `dictAssign` below. -/
structure Database where
  db_name : String
  db_type : DatabaseType := .RELATIONAL
  entity_types : List (String × EntityType) := []
  relationship_types : List (String × RelationshipType) := []
  version : Int := 1
  description : Option String := none
  meta_id : String := freshId
deriving DecidableEq, Repr

/-- `m[k] = v` on a Python dict: replace the value at an existing key in
place (position preserved), otherwise append a new entry. -/
def dictAssign {α : Type} (m : List (String × α)) (k : String) (v : α) :
    List (String × α) :=
  if m.any (fun p => p.1 = k) then
    m.map (fun p => if p.1 = k then (k, v) else p)
  else m ++ [(k, v)]

/-- `m.get(k)` on a Python dict. -/
def dictGet {α : Type} (m : List (String × α)) (k : String) : Option α :=
  (m.find? (fun p => p.1 = k)).map (fun p => p.2)

/-- `Database.add_entity_type`: `self.entity_types[e.en_name] = e`. -/
def Database.add_entity_type (d : Database) (e : EntityType) : Database :=
  { d with entity_types := dictAssign d.entity_types e.en_name e }

/-- `Database.get_entity_type`. -/
def Database.get_entity_type (d : Database) (name : String) : Option EntityType :=
  dictGet d.entity_types name

/-- `Database.add_relationship_type`. -/
def Database.add_relationship_type (d : Database) (r : RelationshipType) : Database :=
  { d with relationship_types := dictAssign d.relationship_types r.rel_name r }

/-- `Database.get_relationship_type`. -/
def Database.get_relationship_type (d : Database) (name : String) :
    Option RelationshipType :=
  dictGet d.relationship_types name

/-- `Database.increment_version`. -/
def Database.increment_version (d : Database) : Database × Int :=
  ({ d with version := d.version + 1 }, d.version + 1)

-- ===========================================================================
-- SERIALIZATION (`to_dict` / `from_dict`)
-- ===========================================================================

/-- JSON-compatible values, the codomain of the `to_dict` methods.  Objects
are insertion-ordered association lists, like Python dicts, so two `J`
values are equal exactly when `json.dumps` would render them byte-identically. -/
inductive J
  | s (v : String)
  | i (v : Int)
  | b (v : Bool)
  | null
  | arr (vs : List J)
  | obj (fields : List (String × J))

/-- `data.get(k, d)` for a string-valued field.  A field present with a type
other than the one `to_dict` emits is unrepresentable in the typed target
field and is treated as absent (no verified claim exercises that corner). -/
def jStrD (fs : List (String × J)) (k : String) (d : String) : String :=
  match dictGet fs k with
  | some (.s v) => v
  | _ => d

/-- `data.get(k)` for an optional string field (`None` when absent). -/
def jStrOpt (fs : List (String × J)) (k : String) : Option String :=
  match dictGet fs k with
  | some (.s v) => some v
  | _ => none

/-- `data.get(k, d)` for a bool-valued field. -/
def jBoolD (fs : List (String × J)) (k : String) (d : Bool) : Bool :=
  match dictGet fs k with
  | some (.b v) => v
  | _ => d

/-- `data.get(k, d)` for an int-valued field. -/
def jIntD (fs : List (String × J)) (k : String) (d : Int) : Int :=
  match dictGet fs k with
  | some (.i v) => v
  | _ => d

/-- `data.get(k)` for an optional int field. -/
def jIntOpt (fs : List (String × J)) (k : String) : Option Int :=
  match dictGet fs k with
  | some (.i v) => some v
  | _ => none

/-- `data.get(k, [])` for a list-valued field. -/
def jListD (fs : List (String × J)) (k : String) : List J :=
  match dictGet fs k with
  | some (.arr vs) => vs
  | _ => []

/-- `data.get(k, {}).values()` for a dict-valued field. -/
def jObjVals (fs : List (String × J)) (k : String) : List J :=
  match dictGet fs k with
  | some (.obj o) => o.map (fun p => p.2)
  | _ => []

/-- The string elements of a JSON list (`referenced_attributes`). -/
def jStrEls (l : List J) : List String :=
  l.filterMap (fun j => match j with | .s v => some v | _ => none)

/-- `if "meta_id" in data: x.meta_id = data["meta_id"]`, else the fresh uuid
drawn by the dataclass default stays (modelled by `freshId`). -/
def jMetaId (fs : List (String × J)) : String :=
  match dictGet fs "meta_id" with
  | some (.s v) => v
  | _ => freshId

/-- `DataType.to_dict` of each subclass: `kind`/`type` first, then each of
`max_length`, `precision`, `scale` only when truthy. -/
def DataType.to_dict : DataType → J
  | .primitive pt ml pr sc =>
    .obj ([("kind", .s "primitive"), ("type", .s pt.value)] ++
      (if truthyInt ml then [("max_length", .i (ml.getD 0))] else []) ++
      (if truthyInt pr then [("precision", .i (pr.getD 0))] else []) ++
      (if truthyInt sc then [("scale", .i (sc.getD 0))] else []))
  | .list el => .obj [("kind", .s "list"), ("element_type", el.to_dict)]
  | .set el => .obj [("kind", .s "set"), ("element_type", el.to_dict)]
  | .map kt vt =>
    .obj [("kind", .s "map"), ("key_type", kt.to_dict), ("value_type", vt.to_dict)]

/-- `Attribute.to_dict`. -/
def Attribute.to_dict (a : Attribute) : J :=
  .obj ([("kind", .s "attribute"), ("meta_id", .s a.meta_id),
         ("attr_name", .s a.attr_name), ("data_type", a.data_type.to_dict),
         ("is_key", .b a.is_key), ("is_optional", .b a.is_optional)] ++
        (if truthyStr a.description then [("description", .s (a.description.getD ""))]
         else []))

/-- `Key.to_dict`: `referenced_entity`/`referenced_attributes` only when
`referenced_entity` is truthy. -/
def Key.to_dict (k : Key) : J :=
  .obj ([("key_type", .s k.key_type.value),
         ("attributes", .arr (k.get_attribute_names.map J.s)),
         ("is_managed", .b k.is_managed)] ++
        (if truthyStr k.referenced_entity then
          [("referenced_entity", .s (k.referenced_entity.getD "")),
           ("referenced_attributes", .arr (k.referenced_attributes.map J.s))]
         else []))

/-- `Reference.to_dict`. -/
def Reference.to_dict (r : Reference) : J :=
  .obj ([("kind", .s "reference"), ("meta_id", .s r.meta_id),
         ("ref_name", .s r.ref_name), ("refs_to", .s r.refs_to),
         ("cardinality", .s r.cardinality.value), ("is_optional", .b r.is_optional)] ++
        (if r.edge_attributes ≠ [] then
          [("edge_attributes", .arr (r.edge_attributes.map Attribute.to_dict))]
         else []) ++
        (if truthyStr r.description then [("description", .s (r.description.getD ""))]
         else []))

/-- `Aggregate.to_dict`. -/
def Aggregate.to_dict (a : Aggregate) : J :=
  .obj ([("kind", .s "aggregate"), ("meta_id", .s a.meta_id),
         ("aggr_name", .s a.aggr_name), ("aggregates", .s a.aggregates),
         ("cardinality", .s a.cardinality.value), ("is_optional", .b a.is_optional),
         ("is_array", .b a.is_array)] ++
        (if truthyStr a.description then [("description", .s (a.description.getD ""))]
         else []))

/-- `Relationship.to_dict` (virtual dispatch to the subclass). -/
def Relationship.to_dict : Relationship → J
  | .ref r => r.to_dict
  | .agg a => a.to_dict

/-- `StructuralVariation.to_dict`. -/
def StructuralVariation.to_dict (v : StructuralVariation) : J :=
  .obj ([("variation_id", .i v.variation_id),
         ("attributes", .arr (v.attributes.map Attribute.to_dict)),
         ("relationships", .arr (v.relationships.map Relationship.to_dict)),
         ("count", .i v.count)] ++
        (if truthyStr v.first_timestamp then
          [("first_timestamp", .s (v.first_timestamp.getD ""))] else []) ++
        (if truthyStr v.last_timestamp then
          [("last_timestamp", .s (v.last_timestamp.getD ""))] else []))

/-- `EntityType.to_dict`: `variations` only when nonempty, `description`
only when truthy. -/
def EntityType.to_dict (e : EntityType) : J :=
  .obj ([("meta_id", .s e.meta_id), ("en_name", .s e.en_name),
         ("entity_kind", .s e.entity_kind.value), ("is_root", .b e.is_root),
         ("keys", .arr (e.keys.map Key.to_dict)),
         ("attributes", .arr (e.attributes.map Attribute.to_dict)),
         ("relationships", .arr (e.relationships.map Relationship.to_dict))] ++
        (if e.variations ≠ [] then
          [("variations", .arr (e.variations.map StructuralVariation.to_dict))]
         else []) ++
        (if truthyStr e.description then [("description", .s (e.description.getD ""))]
         else []))

/-- `RelationshipType.to_dict`. -/
def RelationshipType.to_dict (r : RelationshipType) : J :=
  .obj ([("meta_id", .s r.meta_id), ("rel_name", .s r.rel_name),
         ("source_entity", .s r.source_entity), ("target_entity", .s r.target_entity),
         ("attributes", .arr (r.attributes.map Attribute.to_dict)),
         ("cardinality", .s r.cardinality.value)] ++
        (if truthyStr r.description then [("description", .s (r.description.getD ""))]
         else []))

/-- `Database.to_dict`: `relationship_types` only when the dict is nonempty,
`description` only when truthy. -/
def Database.to_dict (d : Database) : J :=
  .obj ([("meta_id", .s d.meta_id), ("db_name", .s d.db_name),
         ("db_type", .s d.db_type.value), ("version", .i d.version),
         ("entity_types", .obj (d.entity_types.map (fun p => (p.1, p.2.to_dict))))] ++
        (if d.relationship_types ≠ [] then
          [("relationship_types",
            .obj (d.relationship_types.map (fun p => (p.1, p.2.to_dict))))]
         else []) ++
        (if truthyStr d.description then [("description", .s (d.description.getD ""))]
         else []))

-- This lemma only supports the termination argument of `_create_dtype`
-- below (a value found in a JSON object is structurally smaller).

theorem sizeOf_dictGet {k : String} {v : J} {fs : List (String × J)}
    (h : dictGet fs k = some v) : sizeOf v < 1 + sizeOf fs := by
  unfold dictGet at h
  cases hf : fs.find? (fun p => p.1 = k) with
  | none => rw [hf] at h; cases h
  | some p =>
    rw [hf] at h
    have hm : p ∈ fs := List.mem_of_find?_eq_some hf
    have h1 : sizeOf p < sizeOf fs := List.sizeOf_lt_of_mem hm
    have hv : v = p.2 := by cases h; rfl
    subst hv
    cases p with
    | mk a b => simp at h1 ⊢; omega

/-- `Database._create_dtype`: rebuild a `DataType` from its dict; `None` for
an unrecognised shape.  The source recurses on the default `{}` when an
`element_type`/`key_type`/`value_type` field is missing; `_create_dtype({})`
evaluates to the STRING primitive, which is inlined at those call sites. -/
def Database._create_dtype : J → Option DataType
  | .obj fs =>
    let kind : Option String :=
      match dictGet fs "kind" with
      | none => some "primitive"
      | some (.s v) => some v
      | some _ => none
    if kind = some "primitive" then
      let pt : PrimitiveType :=
        match dictGet fs "type" with
        | none => primitiveTypeFromValue "string"
        | some (.s v) => primitiveTypeFromValue v
        | some _ => .STRING
      some (.primitive pt (jIntOpt fs "max_length") (jIntOpt fs "precision")
        (jIntOpt fs "scale"))
    else if kind = some "list" then
      match h : dictGet fs "element_type" with
      | some el =>
        match Database._create_dtype el with
        | some d => some (.list d)
        | none => none
      | none => some (.list (.primitive .STRING none none none))
    else if kind = some "set" then
      match h : dictGet fs "element_type" with
      | some el =>
        match Database._create_dtype el with
        | some d => some (.set d)
        | none => none
      | none => some (.set (.primitive .STRING none none none))
    else if kind = some "map" then
      let kt : Option DataType :=
        match h : dictGet fs "key_type" with
        | some kj => Database._create_dtype kj
        | none => some (.primitive .STRING none none none)
      let vt : Option DataType :=
        match h : dictGet fs "value_type" with
        | some vj => Database._create_dtype vj
        | none => some (.primitive .STRING none none none)
      match kt, vt with
      | some k, some v => some (.map k v)
      | _, _ => none
    else none
  | _ => none
termination_by j => sizeOf j
decreasing_by
  all_goals
    have := sizeOf_dictGet h
    simp
    omega

/-- `Database._create_attr`: `None` unless `kind == "attribute"`; the data
type falls back to the STRING primitive. -/
def Database._create_attr (j : J) : Option Attribute :=
  match j with
  | .obj fs =>
    match dictGet fs "kind" with
    | some (.s "attribute") =>
      let dt := (Database._create_dtype ((dictGet fs "data_type").getD (J.obj []))).getD
        (.primitive .STRING none none none)
      some { attr_name := jStrD fs "attr_name" "",
             data_type := dt,
             is_key := jBoolD fs "is_key" false,
             is_optional := jBoolD fs "is_optional" true,
             description := jStrOpt fs "description",
             meta_id := jMetaId fs }
    | _ => none
  | _ => none

/-- The in-place `a.is_key = True` of `Key.add_attribute` as seen by the
owning entity's attribute list: the first attribute with the given name (the
object `get_attribute` returned) is updated. -/
def setIsKeyFirst : List Attribute → String → List Attribute
  | [], _ => []
  | a :: t, name =>
    if a.attr_name = name then { a with is_key := true } :: t
    else a :: setIsKeyFirst t name

/-- One iteration of the member-resolution loop of `_create_key`:
`if a := entity.get_attribute(an): k.add_attribute(a)`, with the in-place
`is_key = True` reflected into the entity's attribute list. -/
def Database._create_key_step (st : Key × EntityType) (an : J) : Key × EntityType :=
  match an with
  | J.s name =>
    match st.2.get_attribute name with
    | some a =>
      ((st.1.add_attribute a).1,
       { st.2 with attributes := setIsKeyFirst st.2.attributes name })
    | none => st
  | _ => st

/-- `Database._create_key(data, entity)`: rebuild a key, resolving member
names against the entity; each resolved attribute is marked `is_key = True`
in place (hence the updated entity is returned as well); the key is dropped
(`None`) when no member resolved.  An unknown `key_type` value raises inside
the `try` and falls back to `PRIMARY`. -/
def Database._create_key (j : J) (e : EntityType) : Option Key × EntityType :=
  match j with
  | .obj fs =>
    let kt : KeyType :=
      match dictGet fs "key_type" with
      | none => keyTypeFromValue "PRIMARY"
      | some (.s v) => keyTypeFromValue v
      | some _ => .PRIMARY
    let k0 : Key :=
      { key_type := kt, key_attributes := [],
        is_managed := jBoolD fs "is_managed" true,
        referenced_entity := jStrOpt fs "referenced_entity",
        referenced_attributes := jStrEls (jListD fs "referenced_attributes") }
    let res := (jListD fs "attributes").foldl Database._create_key_step (k0, e)
    (if res.1.key_attributes ≠ [] then some res.1 else none, res.2)
  | _ => (none, e)

/-- `Database._create_rel`: rebuild a `Reference` or an `Aggregate`
(`"embedded"` accepted as an alias); `None` for any other kind.  The
cardinality defaults to the symbol `"&"` when the field is absent and to
`ONE_TO_ONE` when the symbol is unknown to `from_symbol`. -/
def Database._create_rel (j : J) : Option Relationship :=
  match j with
  | .obj fs =>
    let card : Cardinality :=
      match dictGet fs "cardinality" with
      | none => Cardinality.from_symbol "&"
      | some (.s v) => Cardinality.from_symbol v
      | some _ => .ONE_TO_ONE
    match dictGet fs "kind" with
    | some (.s "reference") =>
      some (.ref { ref_name := jStrD fs "ref_name" "",
                   refs_to := jStrD fs "refs_to" "",
                   cardinality := card,
                   is_optional := jBoolD fs "is_optional" true,
                   description := jStrOpt fs "description",
                   meta_id := jMetaId fs,
                   edge_attributes :=
                     (jListD fs "edge_attributes").filterMap Database._create_attr })
    | some (.s "aggregate") =>
      some (.agg { aggr_name := jStrD fs "aggr_name" (jStrD fs "em_name" ""),
                   aggregates := jStrD fs "aggregates" (jStrD fs "embeds" ""),
                   cardinality := card,
                   is_optional := jBoolD fs "is_optional" true,
                   description := jStrOpt fs "description",
                   meta_id := jMetaId fs })
    | some (.s "embedded") =>
      some (.agg { aggr_name := jStrD fs "aggr_name" (jStrD fs "em_name" ""),
                   aggregates := jStrD fs "aggregates" (jStrD fs "embeds" ""),
                   cardinality := card,
                   is_optional := jBoolD fs "is_optional" true,
                   description := jStrOpt fs "description",
                   meta_id := jMetaId fs })
    | _ => none
  | _ => none

/-- `Database._create_var`: attributes/relationships are re-added through
the deduplicating `add_attribute`/`add_relationship` of
`StructuralVariation`. -/
def Database._create_var (j : J) : Option StructuralVariation :=
  match j with
  | .obj fs =>
    let v0 : StructuralVariation :=
      { variation_id := jIntD fs "variation_id" 0,
        count := jIntD fs "count" 0,
        first_timestamp := jStrOpt fs "first_timestamp",
        last_timestamp := jStrOpt fs "last_timestamp" }
    let v1 := ((jListD fs "attributes").filterMap Database._create_attr).foldl
      StructuralVariation.add_attribute v0
    let v2 := ((jListD fs "relationships").filterMap Database._create_rel).foldl
      StructuralVariation.add_relationship v1
    some v2
  | _ => none

/-- One iteration of the key-rebuilding loop of `_create_entity`:
`if key := cls._create_key(k, e): e.add_key(key)` (the entity is threaded
because `_create_key` mutates its attributes). -/
def Database._create_entity_key_step (e : EntityType) (kd : J) : EntityType :=
  match Database._create_key kd e with
  | (some key, e') => e'.add_key key
  | (none, e') => e'

/-- `Database._create_entity`: attributes first, then keys (which mutate the
attributes in place), then relationships, then variations.  An unknown
`entity_kind` value falls back to `TABLE` via the `try/except`. -/
def Database._create_entity (j : J) : Option EntityType :=
  match j with
  | .obj fs =>
    let kind : EntityKind :=
      match dictGet fs "entity_kind" with
      | none => entityKindFromValue "table"
      | some (.s v) => entityKindFromValue v
      | some _ => .TABLE
    let e0 : EntityType :=
      { en_name := jStrD fs "en_name" "", entity_kind := kind,
        is_root := jBoolD fs "is_root" true,
        description := jStrOpt fs "description", meta_id := jMetaId fs }
    let e1 := ((jListD fs "attributes").filterMap Database._create_attr).foldl
      EntityType.add_attribute e0
    let e2 := (jListD fs "keys").foldl Database._create_entity_key_step e1
    let e3 := ((jListD fs "relationships").filterMap Database._create_rel).foldl
      EntityType.add_relationship e2
    let e4 := ((jListD fs "variations").filterMap Database._create_var).foldl
      EntityType.add_variation e3
    some e4
  | _ => none

/-- `Database._create_rel_type`: cardinality defaults to the symbol `"*"`
when the field is absent. -/
def Database._create_rel_type (j : J) : Option RelationshipType :=
  match j with
  | .obj fs =>
    let card : Cardinality :=
      match dictGet fs "cardinality" with
      | none => Cardinality.from_symbol "*"
      | some (.s v) => Cardinality.from_symbol v
      | some _ => .ONE_TO_ONE
    let r0 : RelationshipType :=
      { rel_name := jStrD fs "rel_name" "",
        source_entity := jStrD fs "source_entity" "",
        target_entity := jStrD fs "target_entity" "",
        cardinality := card,
        description := jStrOpt fs "description",
        meta_id := jMetaId fs }
    some (((jListD fs "attributes").filterMap Database._create_attr).foldl
      RelationshipType.add_attribute r0)
  | _ => none

/-- `Database.from_dict`: an invalid `db_type` value raises (`none`); each
recreated entity / relationship type is registered through
`add_entity_type` / `add_relationship_type`. -/
def Database.from_dict (j : J) : Option Database :=
  match j with
  | .obj fs =>
    let dbt : Option DatabaseType :=
      match dictGet fs "db_type" with
      | none => some .RELATIONAL
      | some (.s v) => databaseTypeFromValue v
      | some _ => none
    match dbt with
    | none => none
    | some t =>
      let db0 : Database :=
        { db_name := jStrD fs "db_name" "unknown", db_type := t,
          version := jIntD fs "version" 1,
          description := jStrOpt fs "description", meta_id := jMetaId fs }
      let db1 := ((jObjVals fs "entity_types").filterMap Database._create_entity).foldl
        Database.add_entity_type db0
      let db2 := ((jObjVals fs "relationship_types").filterMap
        Database._create_rel_type).foldl Database.add_relationship_type db1
      some db2
  | _ => none

-- ===========================================================================
-- PostgreSQL adapter: dependency resolver
-- (`PostgreSQLAdapter._sort_entities_by_dependency`)
-- ===========================================================================

/-- The dependency set of one entity: targets of its `Reference`
relationships, the entity's own name excluded (`if target != entity.name`).
The source accumulates into a Python `set`; modelled as an insertion-ordered
list with set semantics (add only when absent).  Python set iteration order
is unspecified; every verified property below is independent of the order. -/
def entityDeps (e : EntityType) : List String :=
  e.relationships.foldl
    (fun acc r =>
      match r with
      | .ref rr =>
        if rr.refs_to ≠ e.en_name then
          (if rr.refs_to ∈ acc then acc else acc ++ [rr.refs_to])
        else acc
      | .agg _ => acc) []

/-- `dependencies[entity.name] = deps` over `database.entity_types.values()`. -/
def buildDependencies (d : Database) : List (String × List String) :=
  (d.entity_types.map (fun p => p.2)).foldl
    (fun m e => dictAssign m e.en_name (entityDeps e)) []

/-- The recursive `visit` of `_sort_entities_by_dependency`, state =
(`visited`, `sorted_names`).  The recursion is fuelled; the entry point
passes fuel `|dependencies| + 1`, which the fuel-irrelevance theorem below
shows is always sufficient (the `0` branch is never reached). -/
def visitF (deps : List (String × List String)) :
    Nat → String → List String × List String → List String × List String
  | 0, _, st => st
  | fuel + 1, name, (vis, srt) =>
    if name ∈ vis then (vis, srt)
    else
      let st1 := ((dictGet deps name).getD []).foldl
        (fun st dep => if (dictGet deps dep).isSome then visitF deps fuel dep st else st)
        (vis ++ [name], srt)
      (st1.1, st1.2 ++ [name])

/-- `for name in dependencies: visit(name)` starting from empty state. -/
def sortStateWithFuel (deps : List (String × List String)) (fuel : Nat) :
    List String × List String :=
  (deps.map Prod.fst).foldl (fun st name => visitF deps fuel name st) ([], [])

/-- `PostgreSQLAdapter._sort_entities_by_dependency`. -/
def PostgreSQLAdapter._sort_entities_by_dependency (d : Database) : List EntityType :=
  let deps := buildDependencies d
  ((sortStateWithFuel deps (deps.length + 1)).2).filterMap
    (fun name => d.get_entity_type name)

/-- The edge relation of the dependency graph the resolver actually walks:
`b` is a recorded dependency of `a` and `b` is itself a key of the
`dependencies` dict (the `if dep in dependencies` guard). -/
def depEdge (deps : List (String × List String)) (a b : String) : Prop :=
  ∃ l, dictGet deps a = some l ∧ b ∈ l ∧ (dictGet deps b).isSome = true

/-- `b` occurs strictly before `a` in `l`. -/
def ListBefore {α : Type} (l : List α) (b a : α) : Prop :=
  ∃ l1 l2 l3, l = l1 ++ b :: l2 ++ a :: l3

/-- Acyclicity of the dependency graph (self-references are already excluded
from the edge set by construction). -/
def DepAcyclic (deps : List (String × List String)) : Prop :=
  ∀ n, ¬ Relation.TransGen (depEdge deps) n n

/-- The invariant of the `visit` recursion.  `S` is the set of names on the
current call stack (entered, not yet emitted): the visited set is exactly
`sorted ∪ stack`, the emitted list is duplicate-free and disjoint from the
stack, only dict keys are ever visited, and — when the graph is acyclic —
the emitted list is closed under edges with every dependency emitted
strictly earlier. -/
def SortInv (deps : List (String × List String)) (S vis srt : List String) : Prop :=
  (∀ x, x ∈ vis ↔ (x ∈ srt ∨ x ∈ S)) ∧
  (∀ x ∈ srt, x ∉ S) ∧
  srt.Nodup ∧
  (∀ x ∈ vis, x ∈ deps.map Prod.fst) ∧
  (DepAcyclic deps → ∀ a b, a ∈ srt → depEdge deps a b → ListBefore srt b a)

-- ===========================================================================
-- `PostgreSQLAdapter.parse`: DDL → Database (postgresql_adapter.py 62-372)
-- ===========================================================================

/-- Python's `\s` on ASCII text: space, tab, newline, carriage return,
vertical tab, form feed. -/
def isSpaceChar (c : Char) : Bool :=
  c == ' ' || c == '\t' || c == '\n' || c == '\r' || c == '\x0b' || c == '\x0c'

/-- Python's `\w` on ASCII text: letters, digits and underscore. -/
def isWordChar (c : Char) : Bool :=
  c.isAlphanum || c == '_'

/-- Python `str.lower()` on ASCII text. -/
def pyLower (s : String) : String :=
  ⟨s.data.map Char.toLower⟩

/-- Python `str.upper()` on ASCII text. -/
def pyUpper (s : String) : String :=
  ⟨s.data.map Char.toUpper⟩

/-- `re.sub(r'--.*$', '', ddl, flags=re.MULTILINE)` as a character scan; the
flag is true while inside a line comment (everything up to, but excluding,
the next newline is dropped). -/
def stripLineComments : Bool → List Char → List Char
  | _, [] => []
  | true, '\n' :: r => '\n' :: stripLineComments false r
  | true, _ :: r => stripLineComments true r
  | false, '-' :: '-' :: r => stripLineComments true r
  | false, c :: r => c :: stripLineComments false r

/-- The closing `*/` of a block comment: returns the text after it. -/
def findBlockClose : List Char → Option (List Char)
  | [] => none
  | '*' :: '/' :: r => some r
  | _ :: r => findBlockClose r

/-- `re.sub(r'/\*.*?\*/', '', ddl, flags=re.DOTALL)`: each `/*` with a
closing `*/` is dropped up to the nearest closer (non-greedy); an
unterminated `/*` stays in place exactly as an unmatched regex position
does.  The scan is fuelled; every step consumes at least one character, so
the fuel `length + 1` passed by `_remove_comments` makes the `0` branch
unreachable. -/
def stripBlockComments : Nat → List Char → List Char
  | 0, s => s
  | _ + 1, [] => []
  | fuel + 1, '/' :: '*' :: r =>
    (match findBlockClose r with
     | some rest => stripBlockComments fuel rest
     | none => '/' :: stripBlockComments fuel ('*' :: r))
  | fuel + 1, c :: r => c :: stripBlockComments fuel r

/-- `PostgreSQLAdapter._remove_comments`: line comments first, then block
comments. -/
def PostgreSQLAdapter._remove_comments (ddl : String) : String :=
  let noLine := stripLineComments false ddl.data
  ⟨stripBlockComments (noLine.length + 1) noLine⟩

/-- Case-insensitive literal match (pattern given in lowercase); returns the
consumed original characters and the rest. -/
def matchCIKeep : List Char → List Char → Option (List Char × List Char)
  | [], s => some ([], s)
  | _ :: _, [] => none
  | p :: ps, c :: cs =>
    if c.toLower == p then (matchCIKeep ps cs).map (fun q => (c :: q.1, q.2))
    else none

/-- Maximal whitespace prefix (`\s*`), returned with the rest. -/
def takeWsStar : List Char → List Char × List Char
  | [] => ([], [])
  | c :: r =>
    if isSpaceChar c then
      let q := takeWsStar r
      (c :: q.1, q.2)
    else ([], c :: r)

/-- Maximal word-character prefix (`\w*`), returned with the rest. -/
def takeWordStar : List Char → List Char × List Char
  | [] => ([], [])
  | c :: r =>
    if isWordChar c then
      let q := takeWordStar r
      (c :: q.1, q.2)
    else ([], c :: r)

/-- `\s+`: at least one whitespace character, then the rest. -/
def skipWs1 (s : List Char) : Option (List Char) :=
  let q := takeWsStar s
  if q.1.isEmpty then none else some q.2

/-- `(\w+)`: a nonempty word, returned with the rest. -/
def takeWord1 (s : List Char) : Option (List Char × List Char) :=
  let q := takeWordStar s
  if q.1.isEmpty then none else some q

/-- The non-greedy `(.*?)\);` tail of the CREATE TABLE pattern: the body up
to the first `);`, and the text after it. -/
def findSemiClose : List Char → Option (List Char × List Char)
  | [] => none
  | ')' :: ';' :: r => some ([], r)
  | c :: r => (findSemiClose r).map (fun q => (c :: q.1, q.2))

/-- One attempt of `CREATE\s+TABLE\s+(\w+)\s*\((.*?)\);` (IGNORECASE,
DOTALL) at the current position: table name, body, rest. -/
def matchCreateAt (s : List Char) : Option (String × String × List Char) :=
  match matchCIKeep "create".data s with
  | none => none
  | some (_, s1) =>
    match skipWs1 s1 with
    | none => none
    | some s2 =>
      match matchCIKeep "table".data s2 with
      | none => none
      | some (_, s3) =>
        match skipWs1 s3 with
        | none => none
        | some s4 =>
          match takeWord1 s4 with
          | none => none
          | some (name, s5) =>
            match (takeWsStar s5).2 with
            | '(' :: s6 =>
              (match findSemiClose s6 with
               | none => none
               | some (body, rest) => some (⟨name⟩, ⟨body⟩, rest))
            | _ => none

/-- The `re.findall` scan: non-overlapping matches left to right, advancing
one character past positions that do not match.  Fuelled; every step
consumes at least one character, so the fuel `length + 1` passed by
`_extract_create_tables` makes the `0` branch unreachable. -/
def extractScan : Nat → List Char → List (String × String)
  | 0, _ => []
  | _ + 1, [] => []
  | fuel + 1, c :: r =>
    match matchCreateAt (c :: r) with
    | some (name, body, rest) => (name, body) :: extractScan fuel rest
    | none => extractScan fuel r

/-- `PostgreSQLAdapter._extract_create_tables`. -/
def PostgreSQLAdapter._extract_create_tables (ddl : String) :
    List (String × String) :=
  extractScan (ddl.data.length + 1) ddl.data

/-- Python `str.strip()`. -/
def pyStrip (s : String) : String :=
  ⟨((s.data.dropWhile isSpaceChar).reverse.dropWhile isSpaceChar).reverse⟩

/-- Whitespace-run collapsing: the flag records a pending separator. -/
def collapseWsGo : Bool → List Char → List Char
  | _, [] => []
  | pend, c :: r =>
    if isSpaceChar c then collapseWsGo true r
    else if pend then ' ' :: c :: collapseWsGo false r
    else c :: collapseWsGo false r

/-- `' '.join(s.split())`: strip, and collapse every whitespace run to a
single space. -/
def pyNormWs (s : String) : String :=
  ⟨collapseWsGo false (s.data.dropWhile isSpaceChar)⟩

/-- Python `str.split(',')` (keeps empty pieces). -/
def pySplitComma : List Char → List (List Char)
  | [] => [[]]
  | ',' :: r => [] :: pySplitComma r
  | c :: r =>
    match pySplitComma r with
    | [] => [[c]]
    | h :: t => (c :: h) :: t

/-- Decimal value of a digit list. -/
def digitsVal (l : List Char) : Nat :=
  l.foldl (fun a c => a * 10 + (c.toNat - '0'.toNat)) 0

/-- A nonempty all-digit list, or `none`. -/
def pyIntDigits (ds : List Char) : Option Nat :=
  if ds.isEmpty then none
  else if ds.all Char.isDigit then some (digitsVal ds) else none

/-- Python `int(str)` on an optionally signed decimal literal (surrounding
whitespace stripped; digit-group underscores are not modelled); `none`
models the `ValueError`. -/
def pyInt (s : String) : Option Int :=
  let t := ((s.data.dropWhile isSpaceChar).reverse.dropWhile isSpaceChar).reverse
  match t with
  | '+' :: ds => (pyIntDigits ds).map Int.ofNat
  | '-' :: ds => (pyIntDigits ds).map (fun n => -(Int.ofNat n))
  | ds => (pyIntDigits ds).map Int.ofNat

/-- Python `needle in hay` on strings: substring containment. -/
def listContainsSub (needle : List Char) : List Char → Bool
  | [] => needle.isEmpty
  | c :: r => needle.isPrefixOf (c :: r) || listContainsSub needle r

/-- Modelled from the spec: `TypeMappings.POSTGRESQL_TO_PRIMITIVE` is
imported by the adapter but absent from `src/Schema`.  The spec's type
mapper fixes the primitive kinds and the adapter's docstrings fix the
PostgreSQL spellings (`VARCHAR → STRING`, `INTEGER/SERIAL → INTEGER`,
`DECIMAL → DECIMAL`, `DOUBLE PRECISION → DOUBLE`, ...); per the spec an
unresolvable native type defaults to the generic string-like primitive
(the `.get(..., STRING)` fallback in `_parse_data_type`). -/
def TypeMappings.POSTGRESQL_TO_PRIMITIVE : List (String × PrimitiveType) :=
  [("VARCHAR", .STRING), ("CHAR", .STRING), ("TEXT", .TEXT),
   ("INTEGER", .INTEGER), ("INT", .INTEGER), ("SMALLINT", .INTEGER),
   ("BIGINT", .LONG), ("SERIAL", .INTEGER), ("BIGSERIAL", .LONG),
   ("DOUBLE PRECISION", .DOUBLE), ("REAL", .FLOAT), ("FLOAT", .FLOAT),
   ("DECIMAL", .DECIMAL), ("NUMERIC", .DECIMAL), ("BOOLEAN", .BOOLEAN),
   ("DATE", .DATE), ("TIMESTAMP", .TIMESTAMP), ("UUID", .UUID),
   ("BYTEA", .BINARY)]

/-- `PostgreSQLAdapter.TYPE_MAP = TypeMappings.POSTGRESQL_TO_PRIMITIVE`. -/
def PostgreSQLAdapter.TYPE_MAP : List (String × PrimitiveType) :=
  TypeMappings.POSTGRESQL_TO_PRIMITIVE

/-- `PostgreSQLAdapter._parse_data_type`; `none` models the uncaught
`ValueError` of `int(...)` on a non-numeric type parameter. -/
def PostgreSQLAdapter._parse_data_type (type_name : String)
    (params : Option String) : Option DataType :=
  let primitive := (dictGet PostgreSQLAdapter.TYPE_MAP type_name).getD .STRING
  match params with
  | none => some (.primitive primitive none none none)
  | some ps =>
    if ps.data.isEmpty then some (.primitive primitive none none none)
    else
      let parts := (pySplitComma ps.data).map (fun l => pyStrip ⟨l⟩)
      if primitive == .STRING || primitive == .TEXT then
        match parts with
        | [] => some (.primitive primitive none none none)
        | p0 :: _ =>
          match pyInt p0 with
          | none => none
          | some n => some (.primitive primitive (some n) none none)
      else if primitive == .DECIMAL then
        match parts with
        | [] => some (.primitive primitive none none none)
        | p0 :: rest =>
          match pyInt p0 with
          | none => none
          | some prec =>
            match rest with
            | [] => some (.primitive primitive none (some prec) (some 0))
            | p1 :: _ =>
              match pyInt p1 with
              | none => none
              | some sc => some (.primitive primitive none (some prec) (some sc))
      else some (.primitive primitive none none none)

/-- The greedy optional `(?:\s+PRECISION)?` after the type word: extends the
captured group-2 text when it matches. -/
def matchPrecisionOpt (tw : List Char) (r : List Char) :
    List Char × List Char :=
  let w := takeWsStar r
  if w.1.isEmpty then (tw, r)
  else
    match matchCIKeep "precision".data w.2 with
    | some (k, r4) => (tw ++ w.1 ++ k, r4)
    | none => (tw, r)

/-- The closing `)` of a parameter list (`[^)]` characters before it). -/
def findParenClose : List Char → Option (List Char × List Char)
  | [] => none
  | ')' :: r => some ([], r)
  | c :: r => (findParenClose r).map (fun q => (c :: q.1, q.2))

/-- The optional `(?:\(([^)]+)\))?` parameter group: group 3 when present
(nonempty, closed), otherwise nothing consumed. -/
def matchParamsOpt (s : List Char) : Option String × List Char :=
  match s with
  | '(' :: rest =>
    (match findParenClose rest with
     | some (inner, r6) => if inner.isEmpty then (none, s) else (some ⟨inner⟩, r6)
     | none => (none, s))
  | _ => (none, s)

/-- The anchored column pattern
`^(\w+)\s+(\w+(?:\s+PRECISION)?)\s*(?:\(([^)]+)\))?\s*(.*)?$` (IGNORECASE)
on the whitespace-normalized text: (name, type, params?, constraints). -/
def matchColumn (s : List Char) :
    Option (String × String × Option String × String) :=
  match takeWord1 s with
  | none => none
  | some (g1, r1) =>
    match skipWs1 r1 with
    | none => none
    | some r2 =>
      match takeWord1 r2 with
      | none => none
      | some (tw, r3) =>
        let q := matchPrecisionOpt tw r3
        let r5 := (takeWsStar q.2).2
        let pq := matchParamsOpt r5
        let r7 := (takeWsStar pq.2).2
        some (⟨g1⟩, ⟨q.1⟩, pq.1, ⟨r7⟩)

/-- One attempt of `REFERENCES\s+(\w+)\s*\((\w+)\)` (IGNORECASE) at the
current position, returning the target table (group 1). -/
def matchRefsAt (s : List Char) : Option String :=
  match matchCIKeep "references".data s with
  | none => none
  | some (_, s1) =>
    match skipWs1 s1 with
    | none => none
    | some s2 =>
      match takeWord1 s2 with
      | none => none
      | some (tgt, s3) =>
        match (takeWsStar s3).2 with
        | '(' :: s4 =>
          (match takeWord1 s4 with
           | none => none
           | some (_, s5) =>
             match s5 with
             | ')' :: _ => some ⟨tgt⟩
             | _ => none)
        | _ => none

/-- `re.search` for the REFERENCES clause: first matching position. -/
def searchRefs : List Char → Option String
  | [] => none
  | c :: r =>
    match matchRefsAt (c :: r) with
    | some t => some t
    | none => searchRefs r

/-- `PostgreSQLAdapter._parse_column`.  The outer `none` models the uncaught
exception from `_parse_data_type`; `some (none, none)` is the source's
`return None, None` when the column regex does not match. -/
def PostgreSQLAdapter._parse_column (col_def : String) :
    Option (Option Attribute × Option (String × String)) :=
  let cd := pyNormWs col_def
  match matchColumn cd.data with
  | none => some (none, none)
  | some (g1, g2, g3, g4) =>
    let col_name := pyLower g1
    let col_type := pyUpper g2
    let constraints := g4
    match PostgreSQLAdapter._parse_data_type col_type g3 with
    | none => none
    | some data_type =>
      let is_key := listContainsSub "PRIMARY KEY".data (pyUpper constraints).data
        || (col_type == "SERIAL" || col_type == "BIGSERIAL")
      let is_optional := !listContainsSub "NOT NULL".data (pyUpper constraints).data
        && !is_key
      let attr : Attribute :=
        { attr_name := col_name, data_type := data_type,
          is_key := is_key, is_optional := is_optional }
      let ref_info := (searchRefs constraints.data).map
        (fun tgt => (col_name, pyLower tgt))
      some (some attr, ref_info)

/-- Column splitting at parenthesis depth 0 (`_split_columns`); the depth is
an integer exactly as in Python (it may go negative on malformed input). -/
def splitColumnsGo : List Char → Int → List Char → List String → List String
  | [], _, current, result =>
    let t := pyStrip ⟨current⟩
    if t.data.isEmpty then result else result ++ [t]
  | c :: r, depth, current, result =>
    if c == '(' then splitColumnsGo r (depth + 1) (current ++ [c]) result
    else if c == ')' then splitColumnsGo r (depth - 1) (current ++ [c]) result
    else if c == ',' && depth == 0 then
      splitColumnsGo r depth [] (result ++ [pyStrip ⟨current⟩])
    else splitColumnsGo r depth (current ++ [c]) result

/-- `PostgreSQLAdapter._split_columns`. -/
def PostgreSQLAdapter._split_columns (body : String) : List String :=
  splitColumnsGo body.data 0 [] []

/-- Table-level constraint keywords skipped by `_parse_table`. -/
def skipColKeywords : List String :=
  ["PRIMARY KEY", "FOREIGN KEY", "UNIQUE", "CHECK", "CONSTRAINT"]

/-- The per-column step of `_parse_table`'s loop over the split columns:
state = (entity under construction, pending references gathered so far). -/
def PostgreSQLAdapter._parse_table_step
    (st : Option (EntityType × List (String × String × String)))
    (col_def0 : String) :
    Option (EntityType × List (String × String × String)) :=
  match st with
  | none => none
  | some (entity, pend) =>
    let col_def := pyStrip col_def0
    if col_def.data.isEmpty then some (entity, pend)
    else if skipColKeywords.any (fun kw => kw.data.isPrefixOf (pyUpper col_def).data) then
      some (entity, pend)
    else
      match PostgreSQLAdapter._parse_column col_def with
      | none => none
      | some (none, _) => some (entity, pend)
      | some (some attr, ref_info) =>
        let entity := entity.add_attribute attr
        match ref_info with
        | none => some (entity, pend)
        | some (fk, tgt) => some (entity, pend ++ [(entity.en_name, fk, tgt)])

/-- `PostgreSQLAdapter._parse_table`.  Modelled from the spec: the adapter
constructs `EntityType(object_name=[table_name.lower()])` against an
EntityType variant (with `object_name`, `UniqueConstraint`s and
`add_constraint`) that is absent from `src/Schema`; per the spec the
entity's identity is its name, modelled as `en_name`, and the
`UniqueConstraint` bookkeeping (inline PRIMARY KEY and the SERIAL auto-key
block) touches only that absent constraint store — attributes and pending
references, the subjects of the claims, are built exactly as in the
source. -/
def PostgreSQLAdapter._parse_table (table_name table_body : String) :
    Option (EntityType × List (String × String × String)) :=
  (PostgreSQLAdapter._split_columns table_body).foldl
    PostgreSQLAdapter._parse_table_step
    (some ({ en_name := pyLower table_name }, []))

/-- The `Reference(...)` built by `_resolve_references` for one pending
tuple: cardinality is required-one and `is_optional` is taken from the
foreign-key column's attribute on the (current) source entity, defaulting
to `True` when the attribute is missing. -/
def mkPendingRef (entity : EntityType) (ref_name target_name : String) :
    Reference :=
  { ref_name := ref_name, refs_to := target_name,
    cardinality := .ONE_TO_ONE,
    is_optional :=
      (match entity.get_attribute ref_name with
       | some a => a.is_optional
       | none => true) }

/-- `PostgreSQLAdapter._resolve_references`: each pending
`(entity_name, ref_name, target_name)` tuple is resolved once all entities
exist; the source mutates the looked-up entity in place, modelled by
re-assigning the updated entity under its key. -/
def PostgreSQLAdapter._resolve_references :
    Database → List (String × String × String) → Database
  | db, [] => db
  | db, (entity_name, ref_name, target_name) :: rest =>
    match db.get_entity_type entity_name, db.get_entity_type target_name with
    | some entity, some _ =>
      let updated := entity.add_relationship
        (.ref (mkPendingRef entity ref_name target_name))
      PostgreSQLAdapter._resolve_references
        { db with entity_types := dictAssign db.entity_types entity_name updated }
        rest
    | _, _ => PostgreSQLAdapter._resolve_references db rest

/-- Step 3 of `parse`: the loop `for table_name, table_body in tables`,
threading the database and the adapter's `_pending_references` list. -/
def PostgreSQLAdapter.parseTables :
    List (String × String) → Database → List (String × String × String) →
    Option (Database × List (String × String × String))
  | [], db, pend => some (db, pend)
  | (tn, tb) :: rest, db, pend =>
    match PostgreSQLAdapter._parse_table tn tb with
    | none => none
    | some (e, p) =>
      PostgreSQLAdapter.parseTables rest (db.add_entity_type e) (pend ++ p)

/-- `PostgreSQLAdapter.parse`: remove comments, extract CREATE TABLEs,
parse each table, then resolve the pending references.  `none` models an
uncaught exception from column parsing. -/
def PostgreSQLAdapter.parse (ddl_content db_name : String) : Option Database :=
  let ddl := PostgreSQLAdapter._remove_comments ddl_content
  let tables := PostgreSQLAdapter._extract_create_tables ddl
  match PostgreSQLAdapter.parseTables tables
      { db_name := db_name, db_type := .RELATIONAL } [] with
  | none => none
  | some (db, pend) => some (PostgreSQLAdapter._resolve_references db pend)

-- ===========================================================================
-- Normal forms reached by one `to_dict`/`from_dict` round trip
-- ===========================================================================

/-- `Relationship.cardinality` (field of the abstract base class). -/
def Relationship.cardinality : Relationship → Cardinality
  | .ref r => r.cardinality
  | .agg a => a.cardinality

/-- An `Optional[int]` after a round trip: a falsy value (`None`/`0`) was
omitted by `to_dict` and reads back as `None`. -/
def normInt (o : Option Int) : Option Int := if truthyInt o then o else none

/-- An `Optional[str]` after a round trip: `None`/`""` reads back as `None`. -/
def normStr (o : Option String) : Option String := if truthyStr o then o else none

/-- A `DataType` after a round trip. -/
def normDtype : DataType → DataType
  | .primitive pt ml pr sc => .primitive pt (normInt ml) (normInt pr) (normInt sc)
  | .list el => .list (normDtype el)
  | .set el => .set (normDtype el)
  | .map kt vt => .map (normDtype kt) (normDtype vt)

/-- An `Attribute` after a round trip. -/
def normAttr (a : Attribute) : Attribute :=
  { a with data_type := normDtype a.data_type, description := normStr a.description }

/-- A `Relationship` after a round trip. -/
def normRel : Relationship → Relationship
  | .ref r =>
    .ref { r with
           description := normStr r.description
           edge_attributes := r.edge_attributes.map normAttr }
  | .agg a => .agg { a with description := normStr a.description }

/-- A `Key` of entity `e` after a round trip: members are re-resolved by
name against the recreated entity, and the `referenced_attributes` list is
only restored when `referenced_entity` was serialized. -/
def normKey (e : EntityType) (k : Key) : Key :=
  { key_type := k.key_type,
    key_attributes :=
      k.get_attribute_names.filterMap (fun n => (e.get_attribute n).map normAttr),
    is_managed := k.is_managed,
    referenced_entity := normStr k.referenced_entity,
    referenced_attributes :=
      if truthyStr k.referenced_entity then k.referenced_attributes else [] }

/-- A `StructuralVariation` after a round trip. -/
def normVar (v : StructuralVariation) : StructuralVariation :=
  { v with attributes := v.attributes.map normAttr,
           relationships := v.relationships.map normRel,
           first_timestamp := normStr v.first_timestamp,
           last_timestamp := normStr v.last_timestamp }

/-- An `EntityType` after a round trip. -/
def normEntity (e : EntityType) : EntityType :=
  { e with attributes := e.attributes.map normAttr,
           keys := e.keys.map (normKey e),
           relationships := e.relationships.map normRel,
           variations := e.variations.map normVar,
           description := normStr e.description }

/-- A `RelationshipType` after a round trip. -/
def normRelType (r : RelationshipType) : RelationshipType :=
  { r with attributes := r.attributes.map normAttr,
           description := normStr r.description }

/-- A `Database` after a round trip. -/
def normDb (d : Database) : Database :=
  { d with entity_types := d.entity_types.map (fun p => (p.2.en_name, normEntity p.2)),
           relationship_types :=
             d.relationship_types.map (fun p => (p.2.rel_name, normRelType p.2)),
           description := normStr d.description }

-- ===========================================================================
-- Well-formedness hypotheses under which the round trip is the identity
-- on the serialized form
-- ===========================================================================

/-- A key whose serialized member-name list deserializes to the same list:
nonempty, duplicate-free, and every name resolves on the owning entity to an
attribute already marked `is_key` (so the in-place `is_key = True` of
`_create_key` changes nothing). -/
def KeyGood (e : EntityType) (k : Key) : Prop :=
  k.key_attributes ≠ [] ∧
  k.get_attribute_names.Nodup ∧
  ∀ n ∈ k.get_attribute_names, ((e.get_attribute n).map (fun a => a.is_key)) = some true

instance (e : EntityType) (k : Key) : Decidable (KeyGood e k) := by
  unfold KeyGood
  infer_instance

/-- Every key of the entity is round-trippable, and variation contents stay
duplicate-free after normalization (the deduplicating re-adders of
`_create_var` then change nothing). -/
def EntityGood (e : EntityType) : Prop :=
  (∀ k ∈ e.keys, KeyGood e k) ∧
  ∀ v ∈ e.variations,
    (v.attributes.map normAttr).Nodup ∧ (v.relationships.map normRel).Nodup

instance (e : EntityType) : Decidable (EntityGood e) := by
  unfold EntityGood
  infer_instance

/-- A database whose maps are keyed by the owned objects' own names, without
duplicates, and whose entities are round-trippable. -/
def DatabaseGood (d : Database) : Prop :=
  (∀ p ∈ d.entity_types, p.1 = p.2.en_name) ∧
  (d.entity_types.map (fun p => p.2.en_name)).Nodup ∧
  (∀ p ∈ d.relationship_types, p.1 = p.2.rel_name) ∧
  (d.relationship_types.map (fun p => p.2.rel_name)).Nodup ∧
  ∀ p ∈ d.entity_types, EntityGood p.2

instance (d : Database) : Decidable (DatabaseGood d) := by
  unfold DatabaseGood
  infer_instance

-- ===========================================================================
-- JSON projections used to exhibit serialization counterexamples
-- ===========================================================================

/-- Project a field out of a JSON object. -/
def jProj (j : J) (k : String) : Option J :=
  match j with
  | .obj fs => dictGet fs k
  | _ => none

/-- Length of a JSON array. -/
def jArrLenOf (o : Option J) : Option Nat :=
  match o with
  | some (.arr vs) => some vs.length
  | _ => none

/-- The value of the first field of a JSON object. -/
def firstObjVal (o : Option J) : Option J :=
  match o with
  | some (.obj (p :: _)) => some p.2
  | _ => none

/-- Number of serialized keys of the first entity of a serialized database. -/
def firstEntityKeyCount (j : J) : Option Nat :=
  jArrLenOf ((firstObjVal (jProj j "entity_types")).bind (fun e => jProj e "keys"))

-- ===========================================================================
-- Invariant predicates and concrete example values used by the claims
-- ===========================================================================

/-- Number of PRIMARY keys of an entity. -/
def primaryKeyCount (e : EntityType) : Nat :=
  (e.keys.filter (fun k => k.key_type == KeyType.PRIMARY)).length

/-- The spec's invariant: at most one PRIMARY key per entity. -/
def primaryKeyInvariant (e : EntityType) : Prop := primaryKeyCount e ≤ 1

instance (e : EntityType) : Decidable (primaryKeyInvariant e) :=
  Nat.decLe _ _

/-- A plain string data type used in concrete examples. -/
def dtString : DataType := .primitive .STRING none none none

def attrIdC1 : Attribute :=
  { attr_name := "id", data_type := dtString, is_key := true, is_optional := false }

def pk1C1 : Key := { key_type := .PRIMARY, key_attributes := [attrIdC1] }

def pk2C1 : Key :=
  { key_type := .PRIMARY, key_attributes := [attrIdC1], is_managed := false }

def ukC1 : Key := { key_type := .UNIQUE, key_attributes := [attrIdC1] }

def entC1 : EntityType := { en_name := "person", keys := [pk1C1] }

def attrXC2 : Attribute := { attr_name := "x", data_type := dtString }

def attrX2C2 : Attribute :=
  { attr_name := "x", data_type := dtString, description := some "duplicate" }

def entC2 : EntityType := { en_name := "t", attributes := [attrXC2] }

def attrOptC8 : Attribute :=
  { attr_name := "nickname", data_type := dtString, is_key := false, is_optional := true }

def keyC8 : Key := { key_type := .PRIMARY }

def attrReqC8 : Attribute :=
  { attr_name := "id", data_type := dtString, is_key := false, is_optional := false }

def entOldC10 : EntityType := { en_name := "person", description := some "old" }

def entNewC10 : EntityType := { en_name := "person", description := some "new" }

def entOtherC10 : EntityType := { en_name := "address" }

def dbC10 : Database :=
  { db_name := "db",
    entity_types := [("person", entOldC10), ("address", entOtherC10)] }

/-- C3: an entity carrying a PRIMARY key with no member attributes. -/
def entC3 : EntityType := { en_name := "e", keys := [{ key_type := .PRIMARY }] }

def dC3 : Database := { db_name := "db", entity_types := [("e", entC3)] }

/-- The database produced by one `from_dict ∘ to_dict` round trip of `dC3`. -/
def dC3round : Database := (Database.from_dict dC3.to_dict).getD { db_name := "" }

def attrWC3 : Attribute :=
  { attr_name := "id", data_type := .primitive .STRING (some 24) none none,
    is_key := true, is_optional := false, meta_id := "a1" }

def attrW2C3 : Attribute :=
  { attr_name := "name", data_type := dtString, meta_id := "a2" }

def keyWC3 : Key := { key_type := .PRIMARY, key_attributes := [attrWC3] }

def refWC3 : Relationship :=
  .ref { ref_name := "owner", refs_to := "person", cardinality := .ZERO_TO_MANY,
         is_optional := true, meta_id := "r1" }

def entWC3 : EntityType :=
  { en_name := "person", attributes := [attrWC3, attrW2C3], keys := [keyWC3],
    relationships := [refWC3], meta_id := "e1" }

def rtWC3 : RelationshipType :=
  { rel_name := "KNOWS", source_entity := "person", target_entity := "person",
    cardinality := .ZERO_TO_MANY, meta_id := "t1" }

def dbWC3 : Database :=
  { db_name := "mydb", entity_types := [("person", entWC3)],
    relationship_types := [("KNOWS", rtWC3)], meta_id := "d1" }

/-- C9: a relationship-type dict with no `cardinality` field. -/
def relTypeDictC9 : J := .obj [("rel_name", .s "KNOWS")]

def dbDictC9 : J := .obj [("relationship_types", .obj [("KNOWS", relTypeDictC9)])]

def relFsC9 : List (String × J) := [("kind", .s "reference")]

def keyFsC9 : List (String × J) := [("attributes", .arr [.s "x"])]

def rtFsC9 : List (String × J) := [("rel_name", .s "KNOWS")]

def relWC9 : Relationship := (Database._create_rel (J.obj relFsC9)).getD (.agg {})

def rtWC9 : RelationshipType :=
  (Database._create_rel_type (J.obj rtFsC9)).getD { rel_name := "" }

def keyWC9 : Key :=
  ((Database._create_key (J.obj keyFsC9) entC2).1).getD { key_type := .UNIQUE }

def entWC9 : EntityType := (Database._create_key (J.obj keyFsC9) entC2).2

/-- C4: `address` holds a Reference to `person`; the graph is acyclic and
`address` is declared first, so the resolver must emit `person` first. -/
def refC4 : Reference :=
  { ref_name := "owner", refs_to := "person", is_optional := false,
    meta_id := "r4" }

def entAddrC4 : EntityType :=
  { en_name := "address", relationships := [.ref refC4], meta_id := "e4a" }

def entPersC4 : EntityType := { en_name := "person", meta_id := "e4b" }

def dbC4 : Database :=
  { db_name := "db4",
    entity_types := [("address", entAddrC4), ("person", entPersC4)] }

/-- C6: two entities referencing each other — a cyclic dependency graph. -/
def refAC6 : Reference := { ref_name := "to_b", refs_to := "b", meta_id := "r6a" }

def refBC6 : Reference := { ref_name := "to_a", refs_to := "a", meta_id := "r6b" }

def entAC6 : EntityType :=
  { en_name := "a", relationships := [.ref refAC6], meta_id := "e6a" }

def entBC6 : EntityType :=
  { en_name := "b", relationships := [.ref refBC6], meta_id := "e6b" }

def dbC6 : Database :=
  { db_name := "db6", entity_types := [("a", entAC6), ("b", entBC6)] }

/-- C5: DDL in which `address` references `person`, whose CREATE TABLE
appears later. -/
def ddlC5 : String :=
  "CREATE TABLE address (id SERIAL PRIMARY KEY, person_id INTEGER NOT NULL REFERENCES person(id)); CREATE TABLE person (id SERIAL PRIMARY KEY);"

def bodyAC5 : String :=
  "id SERIAL PRIMARY KEY, person_id INTEGER NOT NULL REFERENCES person(id)"

def bodyBC5 : String := "id SERIAL PRIMARY KEY"

/-- The entity parsed from the `address` CREATE TABLE of `ddlC5`. -/
def eAC5 : EntityType :=
  ((PostgreSQLAdapter._parse_table "address" bodyAC5).map Prod.fst).getD
    { en_name := "" }

/-- The pending references recorded while parsing `address` in `ddlC5`. -/
def pAC5 : List (String × String × String) :=
  ((PostgreSQLAdapter._parse_table "address" bodyAC5).map Prod.snd).getD []

/-- The database produced by `PostgreSQLAdapter.parse` on `ddlC5`. -/
def dbC5 : Database :=
  (PostgreSQLAdapter.parse ddlC5 "db").getD { db_name := "" }

-- ===========================================================================
-- Dictionary helper lemmas
-- ===========================================================================

theorem find?_map_assign {α : Type} (m : List (String × α)) (k : String) (v : α) :
    (m.map (fun p => if p.1 = k then (k, v) else p)).find? (fun p => p.1 = k) =
      if m.any (fun p => p.1 = k) then some (k, v) else none := by
  induction m with
  | nil => rfl
  | cons p t ih =>
    by_cases h : p.1 = k
    · simp [h]
    · rw [List.map_cons, if_neg h, List.find?_cons_of_neg _ (by simpa using h), ih]
      have hd : (decide (p.1 = k)) = false := by simp [h]
      rw [List.any_cons, hd, Bool.false_or]

theorem find?_map_assign_ne {α : Type} (m : List (String × α)) (k n : String) (v : α)
    (h : n ≠ k) :
    (m.map (fun p => if p.1 = k then (k, v) else p)).find? (fun p => p.1 = n) =
      m.find? (fun p => p.1 = n) := by
  induction m with
  | nil => rfl
  | cons p t ih =>
    by_cases hp : p.1 = k
    · rw [List.map_cons, if_pos hp,
        List.find?_cons_of_neg _ (by simpa using fun hc : k = n => h hc.symm),
        List.find?_cons_of_neg _ (by simpa using fun hc : p.1 = n => h (hc ▸ hp))]
      exact ih
    · by_cases hn : p.1 = n
      · rw [List.map_cons, if_neg hp, List.find?_cons_of_pos _ (by simpa using hn),
          List.find?_cons_of_pos _ (by simpa using hn)]
      · rw [List.map_cons, if_neg hp, List.find?_cons_of_neg _ (by simpa using hn),
          List.find?_cons_of_neg _ (by simpa using hn)]
        exact ih

theorem dictGet_assign_self {α : Type} (m : List (String × α)) (k : String) (v : α) :
    dictGet (dictAssign m k v) k = some v := by
  unfold dictAssign dictGet
  by_cases h : (m.any fun p => p.1 = k) = true
  · rw [if_pos h, find?_map_assign, if_pos h]
    rfl
  · rw [if_neg h, List.find?_append]
    have hnone : m.find? (fun p => p.1 = k) = none := by
      rw [List.find?_eq_none]
      intro x hx hc
      exact h (List.any_eq_true.mpr ⟨x, hx, hc⟩)
    rw [hnone]
    simp

theorem dictGet_assign_ne {α : Type} (m : List (String × α)) (k n : String) (v : α)
    (h : n ≠ k) : dictGet (dictAssign m k v) n = dictGet m n := by
  unfold dictAssign dictGet
  by_cases hm : (m.any fun p => p.1 = k) = true
  · rw [if_pos hm, find?_map_assign_ne _ _ _ _ h]
  · rw [if_neg hm, List.find?_append]
    have : List.find? (fun p => p.1 = n) [(k, v)] = none := by
      simp [List.find?, Ne.symm h]
    rw [this]
    simp

theorem keys_assign {α : Type} (m : List (String × α)) (k : String) (v : α) :
    (dictAssign m k v).map Prod.fst =
      if m.any (fun p => p.1 = k) then m.map Prod.fst
      else m.map Prod.fst ++ [k] := by
  unfold dictAssign
  by_cases hm : (m.any fun p => p.1 = k) = true
  · rw [if_pos hm, if_pos hm, List.map_map]
    rw [show (Prod.fst ∘ fun p : String × α => if p.1 = k then (k, v) else p) =
        fun p : String × α => p.1 from by
      funext p
      by_cases hp : p.1 = k <;> simp [hp]]
  · rw [if_neg hm, if_neg hm, List.map_append]
    rfl

-- ===========================================================================
-- An auxiliary list lemma: with at most one element satisfying `p`,
-- `find?` returns any member satisfying `p`.
-- ===========================================================================

theorem find?_eq_of_mem_of_unique {α : Type} (p : α → Bool) (l : List α) (x : α)
    (hcount : (l.filter p).length ≤ 1) (hmem : x ∈ l) (hx : p x = true) :
    l.find? p = some x := by
  induction l with
  | nil => cases hmem
  | cons a t ih =>
    rcases List.mem_cons.mp hmem with rfl | hmt
    · exact List.find?_cons_of_pos _ hx
    · by_cases ha : p a = true
      · exfalso
        have hxf : x ∈ t.filter p := List.mem_filter.mpr ⟨hmt, hx⟩
        have h1 : 0 < (t.filter p).length :=
          List.length_pos.mpr (List.ne_nil_of_mem hxf)
        rw [List.filter_cons_of_pos ha, List.length_cons] at hcount
        omega
      · rw [List.find?_cons_of_neg _ ha]
        apply ih _ hmt
        rwa [List.filter_cons_of_neg ha] at hcount

-- ===========================================================================
-- Claim C1: at-most-one-PRIMARY-key invariant and `add_key`
-- ===========================================================================

/-- C1 counterexample: `EntityType.add_key` does not reject a second PRIMARY
key — on an entity that satisfies the at-most-one-PRIMARY invariant, adding a
second PRIMARY key succeeds and leaves the entity with two PRIMARY keys,
refuting the claim that `add_key` preserves the invariant by rejection. -/
theorem C1_counterexample :
    primaryKeyInvariant entC1 ∧ pk2C1.key_type = KeyType.PRIMARY ∧
    ¬ primaryKeyInvariant (entC1.add_key pk2C1) ∧
    primaryKeyCount (entC1.add_key pk2C1) = 2 := by
  refine ⟨by decide, by decide, by decide, by decide⟩

/-- C1 (amended): `add_key` appends unconditionally and performs no PRIMARY
check; the at-most-one-PRIMARY invariant is preserved only when the key
added is not PRIMARY; and when the invariant holds, `get_primary_key`
returns the unique PRIMARY key. -/
theorem C1_add_key_get_primary_key (e : EntityType) (k : Key)
    (hinv : primaryKeyInvariant e) :
    (e.add_key k).keys = e.keys ++ [k] ∧
    (k.key_type ≠ KeyType.PRIMARY → primaryKeyInvariant (e.add_key k)) ∧
    (k.key_type = KeyType.PRIMARY → k ∈ e.keys → e.get_primary_key = some k) := by
  refine ⟨rfl, ?_, ?_⟩
  · intro hk
    have hnew : (e.add_key k).keys = e.keys ++ [k] := rfl
    unfold primaryKeyInvariant primaryKeyCount at hinv ⊢
    rw [hnew, List.filter_append]
    have hk0 : List.filter (fun k' => k'.key_type == KeyType.PRIMARY) [k] = [] := by
      simp [hk]
    rw [hk0]
    simpa using hinv
  · intro hk hmem
    unfold EntityType.get_primary_key
    exact find?_eq_of_mem_of_unique _ _ _ hinv hmem (by simp [hk])

/-- C1 witness: the amended theorem applied to a concrete entity. -/
theorem C1_witness :
    (entC1.add_key ukC1).keys = entC1.keys ++ [ukC1] ∧
    primaryKeyInvariant (entC1.add_key ukC1) ∧
    entC1.get_primary_key = some pk1C1 :=
  ⟨(C1_add_key_get_primary_key entC1 ukC1 (by decide)).1,
   (C1_add_key_get_primary_key entC1 ukC1 (by decide)).2.1 (by decide),
   (C1_add_key_get_primary_key entC1 pk1C1 (by decide)).2.2 (by decide) (by decide)⟩

-- ===========================================================================
-- Claim C2: `EntityType.add_attribute` and duplicate attribute names
-- ===========================================================================

/-- C2 counterexample: `EntityType.add_attribute` raises no model integrity
error on a duplicate attribute name — it completes, and the duplicate name
persists in the model (two attributes named `x`). -/
theorem C2_counterexample :
    ((entC2.add_attribute attrX2C2).attributes.map (fun a => a.attr_name)) = ["x", "x"] ∧
    ¬ ((entC2.add_attribute attrX2C2).attributes.map (fun a => a.attr_name)).Nodup := by
  refine ⟨by decide, by decide⟩

/-- C2 (amended): `add_attribute` appends unconditionally — there is no
duplicate-name check and no error path, so a duplicate attribute name does
persist in the model. -/
theorem C2_add_attribute_appends (e : EntityType) (a : Attribute) :
    (e.add_attribute a).attributes = e.attributes ++ [a] := rfl

-- ===========================================================================
-- Claim C7: totality of the primitive-to-native type mapping
-- ===========================================================================

/-- C7: for every pair of a `PrimitiveType` (all 18 kinds) and a
`DatabaseType` (all 4 paradigms), `_get_native_type` succeeds (the
`KeyError` branch of the nested dict indexing is unreachable) and
`PrimitiveDataType.to_native` returns a string for every combination of the
optional length/precision/scale fields. -/
theorem C7_to_native_total (pt : PrimitiveType) (db : DatabaseType) :
    (_get_native_type pt db).isSome = true ∧
    ∀ ml pr sc : Option Int,
      ((DataType.primitive pt ml pr sc).to_native db).isSome = true := by
  cases pt <;> cases db <;> exact ⟨rfl, fun _ _ _ => rfl⟩

-- ===========================================================================
-- Claim C8: `is_key → ¬ is_optional` and `Key.add_attribute`
-- ===========================================================================

/-- C8 counterexample: `Key.add_attribute` sets `is_key := true` but leaves
`is_optional` untouched, so adding the optional attribute `nickname` to a
key produces an attribute with `is_key = true` and `is_optional = true`,
violating the claimed invariant. -/
theorem C8_counterexample :
    (keyC8.add_attribute attrOptC8).2.is_key = true ∧
    (keyC8.add_attribute attrOptC8).2.is_optional = true ∧
    ((keyC8.add_attribute attrOptC8).1.key_attributes.map
      (fun a => (a.is_key, a.is_optional))) = [(true, true)] := by
  refine ⟨by decide, by decide, by decide⟩

/-- C8 (amended): `Key.add_attribute` sets `is_key` to true and leaves
`is_optional` unchanged; the `is_key → ¬is_optional` invariant therefore
holds after the call only for attributes that were already non-optional. -/
theorem C8_add_attribute_behavior (k : Key) (a : Attribute) :
    (k.add_attribute a).2.is_key = true ∧
    (k.add_attribute a).2.is_optional = a.is_optional ∧
    (a.is_optional = false →
      ((k.add_attribute a).2.is_key = true ∧ (k.add_attribute a).2.is_optional = false)) := by
  refine ⟨rfl, rfl, fun h => ⟨rfl, h⟩⟩

/-- C8 witness: the amended theorem at a concrete key and attribute. -/
theorem C8_witness :
    (keyC8.add_attribute attrReqC8).2.is_key = true ∧
    (keyC8.add_attribute attrReqC8).2.is_optional = false :=
  (C8_add_attribute_behavior keyC8 attrReqC8).2.2 rfl

-- ===========================================================================
-- Claim C10: `Database.add_entity_type` replaces silently, frames others
-- ===========================================================================

/-- C10: `add_entity_type` binds `e.en_name` to `e` without error (silently
replacing any previous entity of that name, keeping its position), leaves
entries under every other name unchanged, preserves uniqueness of entity
names, and afterwards `get_entity_type e.en_name` returns `e`. -/
theorem C10_add_entity_type (d : Database) (e : EntityType) :
    (d.add_entity_type e).get_entity_type e.en_name = some e ∧
    (∀ n, n ≠ e.en_name → (d.add_entity_type e).get_entity_type n = d.get_entity_type n) ∧
    ((d.entity_types.map Prod.fst).Nodup →
      ((d.add_entity_type e).entity_types.map Prod.fst).Nodup) ∧
    ((d.add_entity_type e).entity_types.map Prod.fst =
      if d.entity_types.any (fun p => p.1 = e.en_name) then d.entity_types.map Prod.fst
      else d.entity_types.map Prod.fst ++ [e.en_name]) := by
  refine ⟨dictGet_assign_self _ _ _, ?_, ?_, keys_assign _ _ _⟩
  · intro n hn
    exact dictGet_assign_ne _ _ _ _ hn
  · intro hnodup
    show ((dictAssign d.entity_types e.en_name e).map Prod.fst).Nodup
    rw [keys_assign]
    by_cases hm : (d.entity_types.any fun p => p.1 = e.en_name) = true
    · rw [if_pos hm]
      exact hnodup
    · rw [if_neg hm, List.nodup_append]
      refine ⟨hnodup, List.nodup_singleton _, ?_⟩
      intro x hx hxe
      have hxeq : x = e.en_name := by simpa using hxe
      subst hxeq
      rcases List.mem_map.mp hx with ⟨p, hp, hfst⟩
      exact absurd (List.any_eq_true.mpr ⟨p, hp, by simpa using hfst⟩) hm

/-- C10 witness: replacing an existing entity name in a concrete database. -/
theorem C10_witness :
    (dbC10.add_entity_type entNewC10).get_entity_type "person" = some entNewC10 ∧
    (dbC10.add_entity_type entNewC10).get_entity_type "address" =
      dbC10.get_entity_type "address" ∧
    ((dbC10.add_entity_type entNewC10).entity_types.map Prod.fst).Nodup :=
  ⟨(C10_add_entity_type dbC10 entNewC10).1,
   (C10_add_entity_type dbC10 entNewC10).2.1 "address" (by decide),
   (C10_add_entity_type dbC10 entNewC10).2.2.1 (by decide)⟩

-- ===========================================================================
-- Claim C9: deserialization defaults
-- ===========================================================================

theorem foldl_invariant {α β : Type} (f : β → α → β) (P : β → Prop)
    (h : ∀ b a, P b → P (f b a)) (l : List α) (b : β) (hb : P b) :
    P (l.foldl f b) := by
  induction l generalizing b with
  | nil => exact hb
  | cons x t ih => exact ih _ (h b x hb)

theorem add_attribute_fst_key_type (k : Key) (a : Attribute) :
    ((k.add_attribute a).1).key_type = k.key_type := by
  unfold Key.add_attribute
  dsimp only
  split <;> rfl

/-- C9 counterexample: a relationship-type dict with no `cardinality` field
deserializes (both via `_create_rel_type` and via `Database.from_dict`) to a
`RelationshipType` whose cardinality is `ZERO_TO_MANY` (`"*"`,
optional-many), not the claimed required-one default. -/
theorem C9_counterexample :
    (Database._create_rel_type relTypeDictC9).map RelationshipType.cardinality =
      some Cardinality.ZERO_TO_MANY ∧
    (Database.from_dict dbDictC9).map
      (fun db => (db.get_relationship_type "KNOWS").map RelationshipType.cardinality) =
      some (some Cardinality.ZERO_TO_MANY) ∧
    Cardinality.ZERO_TO_MANY ≠ Cardinality.ONE_TO_ONE :=
  ⟨rfl, rfl, by decide⟩

/-- C9 (amended): with the `cardinality` field absent, `_create_rel` builds
a relationship with cardinality required-one (`"&"`) and `_create_rel_type`
builds a relationship type with cardinality optional-many (`"*"`); with the
`key_type` field absent, `_create_key` builds a PRIMARY key. -/
theorem C9_deserialization_defaults (fs : List (String × J)) :
    (dictGet fs "cardinality" = none →
      (∀ r, Database._create_rel (J.obj fs) = some r →
        r.cardinality = Cardinality.ONE_TO_ONE) ∧
      (∀ rt, Database._create_rel_type (J.obj fs) = some rt →
        rt.cardinality = Cardinality.ZERO_TO_MANY)) ∧
    (dictGet fs "key_type" = none →
      ∀ e k e', Database._create_key (J.obj fs) e = (some k, e') →
        k.key_type = KeyType.PRIMARY) := by
  refine ⟨fun hc => ⟨?_, ?_⟩, fun hk => ?_⟩
  · intro r hr
    simp only [Database._create_rel, hc] at hr
    split at hr
    all_goals cases hr
    all_goals rfl
  · intro rt hrt
    simp only [Database._create_rel_type, hc] at hrt
    cases hrt
    have : ∀ (l : List Attribute) (r0 : RelationshipType),
        (l.foldl RelationshipType.add_attribute r0).cardinality = r0.cardinality := by
      intro l
      induction l with
      | nil => intro r0; rfl
      | cons a t ih => intro r0; exact ih _
    simpa using this _ _
  · intro e k e' hkr
    simp only [Database._create_key, hk] at hkr
    split at hkr
    · have h1 := congrArg Prod.fst hkr
      simp only at h1
      have h2 := Option.some.inj h1
      rw [← h2]
      apply foldl_invariant _ (fun st : Key × EntityType => st.1.key_type = KeyType.PRIMARY)
      · intro b a hb
        cases a <;> simp only [Database._create_key_step] <;> try exact hb
        case s name =>
          cases hga : b.2.get_attribute name
          · simp only [hga]; exact hb
          · simp only [hga]
            show ((b.1.add_attribute _).1).key_type = KeyType.PRIMARY
            rw [add_attribute_fst_key_type]
            exact hb
      · rfl
    · cases hkr

/-- C9 witness: the amended-defaults theorem at concrete dicts. -/
theorem C9_witness :
    relWC9.cardinality = Cardinality.ONE_TO_ONE ∧
    rtWC9.cardinality = Cardinality.ZERO_TO_MANY ∧
    keyWC9.key_type = KeyType.PRIMARY :=
  ⟨((C9_deserialization_defaults relFsC9).1 rfl).1 relWC9 rfl,
   ((C9_deserialization_defaults rtFsC9).1 rfl).2 rtWC9 rfl,
   (C9_deserialization_defaults keyFsC9).2 rfl entC2 keyWC9 entWC9 rfl⟩

-- ===========================================================================
-- Lemmas on the dependency resolver (claims C4 and C6)
-- ===========================================================================

theorem length_filter_le_of_imp {α : Type} (p q : α → Bool) (l : List α)
    (h : ∀ x, p x = true → q x = true) :
    (l.filter p).length ≤ (l.filter q).length := by
  induction l with
  | nil => exact Nat.le_refl _
  | cons a t ih =>
    rw [List.filter_cons, List.filter_cons]
    cases hp : p a with
    | false =>
      rw [if_neg (by simp [hp])]
      cases hq : q a with
      | false => rw [if_neg (by simp [hq])]; exact ih
      | true => rw [if_pos (by simp [hq])]; exact Nat.le_succ_of_le ih
    | true =>
      rw [if_pos (by simp [hp]), if_pos (by simp [h a hp])]
      simpa using ih

theorem length_filter_lt_of_witness {α : Type} (p q : α → Bool) (l : List α)
    (h : ∀ x, p x = true → q x = true) (w : α) (hw : w ∈ l)
    (hpw : p w = false) (hqw : q w = true) :
    (l.filter p).length < (l.filter q).length := by
  induction l with
  | nil => cases hw
  | cons a t ih =>
    rw [List.filter_cons, List.filter_cons]
    rcases List.mem_cons.mp hw with rfl | hwt
    · rw [if_neg (by simp [hpw]), if_pos (by simp [hqw])]
      exact Nat.lt_succ_of_le (length_filter_le_of_imp p q t h)
    · cases hp : p a with
      | false =>
        rw [if_neg (by simp [hp])]
        cases hq : q a with
        | false => rw [if_neg (by simp [hq])]; exact ih hwt
        | true =>
          rw [if_pos (by simp [hq])]
          exact Nat.lt_succ_of_le (Nat.le_of_lt (ih hwt))
      | true =>
        rw [if_pos (by simp [hp]), if_pos (by simp [h a hp])]
        simpa using ih hwt

theorem filter_not_mem_mono (keys vis vis1 : List String) (h : vis ⊆ vis1) :
    (keys.filter (fun k => k ∉ vis1)).length ≤ (keys.filter (fun k => k ∉ vis)).length :=
  length_filter_le_of_imp _ _ keys (fun x hx => by
    simp only [decide_eq_true_eq] at hx ⊢
    exact fun hc => hx (h hc))

theorem filter_not_mem_add (keys vis : List String) (name : String)
    (hk : name ∈ keys) (hv : name ∉ vis) :
    (keys.filter (fun k => k ∉ vis ++ [name])).length <
      (keys.filter (fun k => k ∉ vis)).length :=
  length_filter_lt_of_witness _ _ keys
    (fun x hx => by
      simp only [decide_eq_true_eq] at hx ⊢
      exact fun hc => hx (by simp [hc]))
    name hk (by simp) (by simpa using hv)

theorem dictGet_isSome_mem {α : Type} (m : List (String × α)) (n : String)
    (h : (dictGet m n).isSome = true) : n ∈ m.map Prod.fst := by
  unfold dictGet at h
  cases hf : m.find? (fun p => p.1 = n) with
  | none => rw [hf] at h; cases h
  | some p =>
    have hm := List.mem_of_find?_eq_some hf
    have hp : p.1 = n := by simpa using List.find?_some hf
    exact List.mem_map.mpr ⟨p, hm, hp⟩

theorem visitF_unfold_pos (deps : List (String × List String)) (fuel : Nat)
    (name : String) (vis srt : List String) (hmem : name ∈ vis) :
    visitF deps (fuel + 1) name (vis, srt) = (vis, srt) := by
  simp [visitF, hmem]

theorem visitF_unfold_neg (deps : List (String × List String)) (fuel : Nat)
    (name : String) (vis srt : List String) (hmem : name ∉ vis) :
    visitF deps (fuel + 1) name (vis, srt) =
      ((((dictGet deps name).getD []).foldl
          (fun st dep => if (dictGet deps dep).isSome then visitF deps fuel dep st
            else st) (vis ++ [name], srt)).1,
       (((dictGet deps name).getD []).foldl
          (fun st dep => if (dictGet deps dep).isSome then visitF deps fuel dep st
            else st) (vis ++ [name], srt)).2 ++ [name]) := by
  simp [visitF, hmem]

theorem visitF_mono (deps : List (String × List String)) :
    ∀ fuel name vis srt,
      vis ⊆ (visitF deps fuel name (vis, srt)).1 ∧
      srt <+: (visitF deps fuel name (vis, srt)).2 := by
  intro fuel
  induction fuel with
  | zero => intro name vis srt; exact ⟨fun _ h => h, ⟨[], List.append_nil _⟩⟩
  | succ fuel ih =>
    intro name vis srt
    by_cases hmem : name ∈ vis
    · rw [visitF_unfold_pos deps fuel name vis srt hmem]
      exact ⟨fun _ h => h, ⟨[], List.append_nil _⟩⟩
    · have hfold : ∀ (ds : List String) (st : List String × List String),
          st.1 ⊆ (ds.foldl
            (fun st dep => if (dictGet deps dep).isSome then visitF deps fuel dep st
              else st) st).1 ∧
          st.2 <+: (ds.foldl
            (fun st dep => if (dictGet deps dep).isSome then visitF deps fuel dep st
              else st) st).2 := by
        intro ds
        induction ds with
        | nil => intro st; exact ⟨fun _ h => h, ⟨[], List.append_nil _⟩⟩
        | cons dh dt ihd =>
          intro st
          simp only [List.foldl_cons]
          cases hg : (dictGet deps dh).isSome with
          | false =>
            simp only [hg, Bool.false_eq_true, if_false]
            exact ihd st
          | true =>
            simp only [hg, if_true]
            obtain ⟨ha, hb⟩ := ih dh st.1 st.2
            obtain ⟨hc, hd⟩ := ihd (visitF deps fuel dh (st.1, st.2))
            exact ⟨fun x hx => hc (ha hx), hb.trans hd⟩
      obtain ⟨h1, h2⟩ := hfold ((dictGet deps name).getD []) (vis ++ [name], srt)
      rw [visitF_unfold_neg deps fuel name vis srt hmem]
      exact ⟨fun x hx => h1 (by simp [hx]), h2.trans ⟨[name], rfl⟩⟩

theorem visitF_fuel_eq (deps : List (String × List String)) :
    ∀ f1 f2 name vis srt,
      name ∈ deps.map Prod.fst →
      ((deps.map Prod.fst).filter (fun k => k ∉ vis)).length < f1 →
      ((deps.map Prod.fst).filter (fun k => k ∉ vis)).length < f2 →
      visitF deps f1 name (vis, srt) = visitF deps f2 name (vis, srt) := by
  intro f1
  induction f1 with
  | zero => intro f2 name vis srt _ h1 _; exact absurd h1 (Nat.not_lt_zero _)
  | succ f1 ih =>
    intro f2 name vis srt hname h1 h2
    cases f2 with
    | zero => exact absurd h2 (Nat.not_lt_zero _)
    | succ f2 =>
      by_cases hmem : name ∈ vis
      · rw [visitF_unfold_pos _ _ _ _ _ hmem, visitF_unfold_pos _ _ _ _ _ hmem]
      · rw [visitF_unfold_neg _ _ _ _ _ hmem, visitF_unfold_neg _ _ _ _ _ hmem]
        have hlt := filter_not_mem_add (deps.map Prod.fst) vis name hname hmem
        have hfoldeq : ∀ (ds : List String) (vis1 srt1 : List String),
            ((deps.map Prod.fst).filter (fun k => k ∉ vis1)).length < f1 →
            ((deps.map Prod.fst).filter (fun k => k ∉ vis1)).length < f2 →
            ds.foldl (fun st dep =>
              if (dictGet deps dep).isSome then visitF deps f1 dep st else st) (vis1, srt1) =
            ds.foldl (fun st dep =>
              if (dictGet deps dep).isSome then visitF deps f2 dep st else st) (vis1, srt1) := by
          intro ds
          induction ds with
          | nil => intro vis1 srt1 _ _; rfl
          | cons dh dt ihd =>
            intro vis1 srt1 hb1 hb2
            simp only [List.foldl_cons]
            cases hg : (dictGet deps dh).isSome with
            | false =>
              simp only [hg, Bool.false_eq_true, if_false]
              exact ihd vis1 srt1 hb1 hb2
            | true =>
              simp only [hg, if_true]
              have heq := ih f2 dh vis1 srt1 (dictGet_isSome_mem deps dh hg) hb1 hb2
              rw [heq]
              have hmono := (visitF_mono deps f2 dh vis1 srt1).1
              have hle := filter_not_mem_mono (deps.map Prod.fst) vis1
                (visitF deps f2 dh (vis1, srt1)).1 hmono
              exact ihd (visitF deps f2 dh (vis1, srt1)).1
                (visitF deps f2 dh (vis1, srt1)).2 (by omega) (by omega)
        rw [hfoldeq ((dictGet deps name).getD []) (vis ++ [name]) srt
          (by omega) (by omega)]

theorem listBefore_append_right {α : Type} (l : List α) (b a : α) (t : List α)
    (h : ListBefore l b a) : ListBefore (l ++ t) b a := by
  obtain ⟨l1, l2, l3, rfl⟩ := h
  exact ⟨l1, l2, l3 ++ t, by simp⟩

theorem visitF_spec (deps : List (String × List String))
    (hself : ∀ n l, dictGet deps n = some l → n ∉ l) :
    ∀ fuel name vis srt S,
      ((deps.map Prod.fst).filter (fun k => k ∉ vis)).length < fuel →
      name ∈ deps.map Prod.fst →
      (∀ s ∈ S, Relation.TransGen (depEdge deps) s name) →
      SortInv deps S vis srt →
      SortInv deps S (visitF deps fuel name (vis, srt)).1
        (visitF deps fuel name (vis, srt)).2 ∧
      name ∈ (visitF deps fuel name (vis, srt)).1 := by
  intro fuel
  induction fuel with
  | zero => intro name vis srt S hb _ _ _; exact absurd hb (Nat.not_lt_zero _)
  | succ fuel ih =>
    intro name vis srt S hb hname hreach hinv
    by_cases hmem : name ∈ vis
    · rw [visitF_unfold_pos _ _ _ _ _ hmem]; exact ⟨hinv, hmem⟩
    · obtain ⟨hiv, hds, hnd, hks, hord⟩ := hinv
      have hnameNotS : name ∉ S := fun hc => hmem ((hiv name).mpr (Or.inr hc))
      have hinv1 : SortInv deps (name :: S) (vis ++ [name]) srt := by
        refine ⟨?_, ?_, hnd, ?_, hord⟩
        · intro x
          rw [List.mem_append, List.mem_singleton, List.mem_cons]
          constructor
          · rintro (hx | rfl)
            · rcases (hiv x).mp hx with h | h
              · exact Or.inl h
              · exact Or.inr (Or.inr h)
            · exact Or.inr (Or.inl rfl)
          · rintro (hx | rfl | hx)
            · exact Or.inl ((hiv x).mpr (Or.inl hx))
            · exact Or.inr rfl
            · exact Or.inl ((hiv x).mpr (Or.inr hx))
        · intro x hx
          rw [List.mem_cons]
          rintro (rfl | hs)
          · exact hmem ((hiv x).mpr (Or.inl hx))
          · exact hds x hx hs
        · intro x hx
          rcases List.mem_append.mp hx with h | h
          · exact hks x h
          · rw [List.mem_singleton] at h; subst h; exact hname
      have hlt := filter_not_mem_add (deps.map Prod.fst) vis name hname hmem
      have hfold : ∀ (ds : List String),
          (∀ d ∈ ds, d ∈ (dictGet deps name).getD []) →
          ∀ (vis1 srt1 : List String),
            vis ++ [name] ⊆ vis1 →
            SortInv deps (name :: S) vis1 srt1 →
            SortInv deps (name :: S)
              (ds.foldl (fun st dep =>
                if (dictGet deps dep).isSome then visitF deps fuel dep st
                else st) (vis1, srt1)).1
              (ds.foldl (fun st dep =>
                if (dictGet deps dep).isSome then visitF deps fuel dep st
                else st) (vis1, srt1)).2 ∧
            vis1 ⊆ (ds.foldl (fun st dep =>
                if (dictGet deps dep).isSome then visitF deps fuel dep st
                else st) (vis1, srt1)).1 ∧
            ∀ d ∈ ds, (dictGet deps d).isSome = true →
              d ∈ (ds.foldl (fun st dep =>
                if (dictGet deps dep).isSome then visitF deps fuel dep st
                else st) (vis1, srt1)).1 := by
        intro ds
        induction ds with
        | nil =>
          intro _ vis1 srt1 _ hinvA
          exact ⟨hinvA, fun x hx => hx, fun d hd => absurd hd (List.not_mem_nil d)⟩
        | cons dh dt ihd =>
          intro hdss vis1 srt1 hsup hinvA
          simp only [List.foldl_cons]
          cases hg : (dictGet deps dh).isSome with
          | false =>
            simp only [hg, Bool.false_eq_true, if_false]
            obtain ⟨hA, hB, hC⟩ := ihd (fun d hd => hdss d (List.mem_cons_of_mem dh hd))
              vis1 srt1 hsup hinvA
            refine ⟨hA, hB, ?_⟩
            intro d hd hgd
            rcases List.mem_cons.mp hd with rfl | hd'
            · rw [hg] at hgd; cases hgd
            · exact hC d hd' hgd
          | true =>
            simp only [hg, if_true]
            have hreach2 : ∀ s ∈ name :: S,
                Relation.TransGen (depEdge deps) s dh := by
              have hdh := hdss dh (List.mem_cons_self dh dt)
              have hedge : depEdge deps name dh := by
                cases hdn : dictGet deps name with
                | none => rw [hdn] at hdh; cases hdh
                | some l =>
                  rw [hdn] at hdh
                  exact ⟨l, hdn, hdh, hg⟩
              intro s hs
              rcases List.mem_cons.mp hs with rfl | hs'
              · exact Relation.TransGen.single hedge
              · exact (hreach s hs').tail hedge
            have hbnd : ((deps.map Prod.fst).filter
                (fun k => k ∉ vis1)).length < fuel := by
              have hle := filter_not_mem_mono (deps.map Prod.fst) (vis ++ [name])
                vis1 hsup
              omega
            obtain ⟨hI, hN⟩ := ih dh vis1 srt1 (name :: S) hbnd
              (dictGet_isSome_mem deps dh hg) hreach2 hinvA
            have hmono := (visitF_mono deps fuel dh vis1 srt1).1
            have hsup' : vis ++ [name] ⊆ (visitF deps fuel dh (vis1, srt1)).1 :=
              fun x hx => hmono (hsup hx)
            obtain ⟨hA, hB, hC⟩ := ihd (fun d hd => hdss d (List.mem_cons_of_mem dh hd))
              (visitF deps fuel dh (vis1, srt1)).1
              (visitF deps fuel dh (vis1, srt1)).2 hsup' hI
            refine ⟨hA, fun x hx => hB (hmono hx), ?_⟩
            intro d hd hgd
            rcases List.mem_cons.mp hd with rfl | hd'
            · exact hB hN
            · exact hC d hd' hgd
      obtain ⟨hinv2, hsup2, hdep2⟩ := hfold ((dictGet deps name).getD [])
        (fun d h => h) (vis ++ [name]) srt (fun x hx => hx) hinv1
      obtain ⟨hiv2, hds2, hnd2, hks2, hord2⟩ := hinv2
      have hnotB : name ∉ (((dictGet deps name).getD []).foldl
          (fun st dep => if (dictGet deps dep).isSome then visitF deps fuel dep st
            else st) (vis ++ [name], srt)).2 :=
        fun hc => hds2 name hc (List.mem_cons_self name S)
      have hnameA : name ∈ (((dictGet deps name).getD []).foldl
          (fun st dep => if (dictGet deps dep).isSome then visitF deps fuel dep st
            else st) (vis ++ [name], srt)).1 :=
        hsup2 (List.mem_append_right vis (List.mem_singleton.mpr rfl))
      rw [visitF_unfold_neg _ _ _ _ _ hmem]
      refine ⟨⟨?_, ?_, ?_, ?_, ?_⟩, hnameA⟩
      · intro x
        have h2 := hiv2 x
        rw [List.mem_cons] at h2
        rw [List.mem_append, List.mem_singleton]
        constructor
        · intro hx
          rcases h2.mp hx with hB | hN | hS
          · exact Or.inl (Or.inl hB)
          · exact Or.inl (Or.inr hN)
          · exact Or.inr hS
        · rintro ((hB | rfl) | hS)
          · exact h2.mpr (Or.inl hB)
          · exact h2.mpr (Or.inr (Or.inl rfl))
          · exact h2.mpr (Or.inr (Or.inr hS))
      · intro x hx
        rcases List.mem_append.mp hx with hB | hN
        · intro hs
          exact hds2 x hB (List.mem_cons_of_mem name hs)
        · rw [List.mem_singleton] at hN; subst hN
          exact hnameNotS
      · exact List.Nodup.append hnd2 (List.nodup_singleton name)
          (fun a haB han => hnotB (by rwa [List.mem_singleton.mp han] at haB))
      · exact hks2
      · intro hacyc a b ha hedge
        rcases List.mem_append.mp ha with haB | haN
        · exact listBefore_append_right _ b a [name] (hord2 hacyc a b haB hedge)
        · rw [List.mem_singleton] at haN; subst haN
          obtain ⟨l, hl, hbl, hbg⟩ := hedge
          have hbA := hdep2 b (by rw [hl]; exact hbl) hbg
          have h2 := (hiv2 b).mp hbA
          rw [List.mem_cons] at h2
          rcases h2 with hbB | hbn | hbS
          · obtain ⟨u, w, hw⟩ := List.append_of_mem hbB
            rw [hw]
            exact ⟨u, w, [], by simp⟩
          · subst hbn
            exact absurd hbl (hself _ l hl)
          · exact absurd ((hreach b hbS).tail ⟨l, hl, hbl, hbg⟩) (hacyc b)

theorem entityDeps_fold_mono (ename : String) :
    ∀ (rels : List Relationship) (acc : List String) (x : String), x ∈ acc →
      x ∈ rels.foldl
        (fun acc r =>
          match r with
          | .ref rr =>
            if rr.refs_to ≠ ename then
              (if rr.refs_to ∈ acc then acc else acc ++ [rr.refs_to])
            else acc
          | .agg _ => acc) acc := by
  intro rels
  induction rels with
  | nil => intro acc x hx; exact hx
  | cons r t ih =>
    intro acc x hx
    rw [List.foldl_cons]
    apply ih
    cases r with
    | ref rr =>
      show x ∈ if rr.refs_to ≠ ename then
          (if rr.refs_to ∈ acc then acc else acc ++ [rr.refs_to]) else acc
      by_cases h1 : rr.refs_to ≠ ename
      · rw [if_pos h1]
        by_cases h2 : rr.refs_to ∈ acc
        · rw [if_pos h2]; exact hx
        · rw [if_neg h2]; exact List.mem_append_left _ hx
      · rw [if_neg h1]; exact hx
    | agg ag => exact hx

theorem entityDeps_fold_mem (ename : String) :
    ∀ (rels : List Relationship) (acc : List String) (rr : Reference),
      Relationship.ref rr ∈ rels → rr.refs_to ≠ ename →
      rr.refs_to ∈ rels.foldl
        (fun acc r =>
          match r with
          | .ref rr =>
            if rr.refs_to ≠ ename then
              (if rr.refs_to ∈ acc then acc else acc ++ [rr.refs_to])
            else acc
          | .agg _ => acc) acc := by
  intro rels
  induction rels with
  | nil => intro acc rr h _; cases h
  | cons r t ih =>
    intro acc rr h hne
    rw [List.foldl_cons]
    rcases List.mem_cons.mp h with heq | h'
    · rw [← heq]
      apply entityDeps_fold_mono
      show rr.refs_to ∈ if rr.refs_to ≠ ename then
          (if rr.refs_to ∈ acc then acc else acc ++ [rr.refs_to]) else acc
      rw [if_pos hne]
      by_cases h2 : rr.refs_to ∈ acc
      · rw [if_pos h2]; exact h2
      · rw [if_neg h2]
        exact List.mem_append_right _ (List.mem_singleton.mpr rfl)
    · exact ih _ rr h' hne

theorem entityDeps_fold_not_self (ename : String) :
    ∀ (rels : List Relationship) (acc : List String), ename ∉ acc →
      ename ∉ rels.foldl
        (fun acc r =>
          match r with
          | .ref rr =>
            if rr.refs_to ≠ ename then
              (if rr.refs_to ∈ acc then acc else acc ++ [rr.refs_to])
            else acc
          | .agg _ => acc) acc := by
  intro rels
  induction rels with
  | nil => intro acc hx; exact hx
  | cons r t ih =>
    intro acc hx
    rw [List.foldl_cons]
    apply ih
    cases r with
    | ref rr =>
      show ename ∉ if rr.refs_to ≠ ename then
          (if rr.refs_to ∈ acc then acc else acc ++ [rr.refs_to]) else acc
      by_cases h1 : rr.refs_to ≠ ename
      · rw [if_pos h1]
        by_cases h2 : rr.refs_to ∈ acc
        · rw [if_pos h2]; exact hx
        · rw [if_neg h2]
          intro hc
          rcases List.mem_append.mp hc with hc1 | hc2
          · exact hx hc1
          · rw [List.mem_singleton] at hc2
            exact h1 hc2.symm
      · rw [if_neg h1]; exact hx
    | agg ag => exact hx

theorem mem_entityDeps (e : EntityType) (rr : Reference)
    (h : Relationship.ref rr ∈ e.relationships) (hne : rr.refs_to ≠ e.en_name) :
    rr.refs_to ∈ entityDeps e :=
  entityDeps_fold_mem e.en_name e.relationships [] rr h hne

theorem entityDeps_not_self (e : EntityType) : e.en_name ∉ entityDeps e :=
  entityDeps_fold_not_self e.en_name e.relationships [] (List.not_mem_nil _)

theorem dictAssign_fresh {α : Type} (m : List (String × α)) (k : String) (v : α)
    (h : k ∉ m.map Prod.fst) : dictAssign m k v = m ++ [(k, v)] := by
  unfold dictAssign
  rw [if_neg]
  intro hc
  obtain ⟨p, hp, hpk⟩ := List.any_eq_true.mp hc
  exact h (List.mem_map.mpr ⟨p, hp, by simpa using hpk⟩)

theorem buildDependencies_eq (d : Database)
    (hkeys : ∀ p ∈ d.entity_types, p.1 = p.2.en_name)
    (hnd : (d.entity_types.map Prod.fst).Nodup) :
    buildDependencies d
      = d.entity_types.map (fun p => (p.2.en_name, entityDeps p.2)) := by
  have hgen : ∀ (ps : List (String × EntityType)) (m : List (String × List String)),
      (∀ p ∈ ps, p.1 = p.2.en_name) → (ps.map Prod.fst).Nodup →
      (∀ p ∈ ps, p.1 ∉ m.map Prod.fst) →
      (ps.map (fun p => p.2)).foldl
          (fun m e => dictAssign m e.en_name (entityDeps e)) m
        = m ++ ps.map (fun p => (p.2.en_name, entityDeps p.2)) := by
    intro ps
    induction ps with
    | nil => intro m _ _ _; simp
    | cons p pt ih =>
      intro m hk hnd1 hfresh
      rw [List.map_cons] at hnd1
      have hp1 : p.1 = p.2.en_name := hk p (List.mem_cons_self p pt)
      simp only [List.map_cons, List.foldl_cons]
      rw [dictAssign_fresh _ _ _ (by
        rw [← hp1]; exact hfresh p (List.mem_cons_self p pt))]
      rw [ih (m ++ [(p.2.en_name, entityDeps p.2)])
        (fun q hq => hk q (List.mem_cons_of_mem p hq))
        (List.nodup_cons.mp hnd1).2
        (fun q hq => by
          rw [List.map_append, List.mem_append]
          rintro (hc | hc)
          · exact hfresh q (List.mem_cons_of_mem p hq) hc
          · simp only [List.map_cons, List.map_nil, List.mem_singleton] at hc
            rw [← hp1] at hc
            exact (List.nodup_cons.mp hnd1).1
              (by rw [← hc]; exact List.mem_map.mpr ⟨q, hq, rfl⟩))]
      simp
  unfold buildDependencies
  exact hgen d.entity_types [] hkeys hnd (fun p _ => List.not_mem_nil _)

theorem dictGet_map_pair {α β : Type} (f : α → String) (g : α → β) :
    ∀ (l : List α) (n : String),
      dictGet (l.map (fun x => (f x, g x))) n
        = (l.find? (fun x => f x = n)).map g := by
  intro l
  induction l with
  | nil => intro n; rfl
  | cons x t ih =>
    intro n
    rw [List.map_cons]
    unfold dictGet
    cases hfx : (decide (f x = n)) with
    | true =>
      rw [List.find?_cons_of_pos _ (by simpa using hfx),
        List.find?_cons_of_pos _ (by exact hfx)]
      rfl
    | false =>
      rw [List.find?_cons_of_neg _ (by simpa using hfx),
        List.find?_cons_of_neg _ (by simpa using hfx)]
      have := ih n
      unfold dictGet at this
      exact this

theorem find?_congr_mem {α : Type} (p q : α → Bool) :
    ∀ (l : List α), (∀ x ∈ l, p x = q x) → l.find? p = l.find? q := by
  intro l
  induction l with
  | nil => intro _; rfl
  | cons x t ih =>
    intro h
    rw [List.find?_cons, List.find?_cons, h x (List.mem_cons_self x t),
      ih (fun y hy => h y (List.mem_cons_of_mem x hy))]

theorem dictGet_buildDeps (d : Database)
    (hkeys : ∀ p ∈ d.entity_types, p.1 = p.2.en_name)
    (hnd : (d.entity_types.map Prod.fst).Nodup) (n : String) :
    dictGet (buildDependencies d) n
      = (d.get_entity_type n).map entityDeps := by
  rw [buildDependencies_eq d hkeys hnd]
  rw [dictGet_map_pair (fun p => p.2.en_name) (fun p => entityDeps p.2)
    d.entity_types n]
  rw [find?_congr_mem (fun p => decide (p.2.en_name = n)) (fun p => decide (p.1 = n))
    d.entity_types (fun x hx => by simp only [hkeys x hx])]
  unfold Database.get_entity_type dictGet
  cases d.entity_types.find? (fun p => p.1 = n) <;> rfl

theorem dictGet_some_key {α : Type} (m : List (String × α)) (n : String) (v : α)
    (h : dictGet m n = some v) : ∃ p ∈ m, p.1 = n ∧ p.2 = v := by
  unfold dictGet at h
  cases hf : m.find? (fun p => p.1 = n) with
  | none => rw [hf] at h; cases h
  | some q =>
    rw [hf] at h
    have hq1 : q.1 = n := by simpa using List.find?_some hf
    have h2 : some q.2 = some v := by simpa using h
    exact ⟨q, List.mem_of_find?_eq_some hf, hq1, Option.some.inj h2⟩

theorem buildDeps_no_self (d : Database)
    (hkeys : ∀ p ∈ d.entity_types, p.1 = p.2.en_name)
    (hnd : (d.entity_types.map Prod.fst).Nodup) :
    ∀ n l, dictGet (buildDependencies d) n = some l → n ∉ l := by
  intro n l h
  rw [dictGet_buildDeps d hkeys hnd n] at h
  cases hg : d.get_entity_type n with
  | none => rw [hg] at h; cases h
  | some e =>
    rw [hg] at h
    have hle : entityDeps e = l := Option.some.inj (by simpa using h)
    obtain ⟨p, hp, hp1, hp2⟩ := dictGet_some_key d.entity_types n e hg
    have hen : e.en_name = n := by rw [← hp2, ← hkeys p hp, hp1]
    rw [← hle, ← hen]
    exact entityDeps_not_self e

theorem dictGet_self_of_nodup {α : Type} :
    ∀ (m : List (String × α)), (m.map Prod.fst).Nodup →
      ∀ p ∈ m, dictGet m p.1 = some p.2 := by
  intro m
  induction m with
  | nil => intro _ p hp; cases hp
  | cons q t ih =>
    intro hnd p hp
    rw [List.map_cons, List.nodup_cons] at hnd
    unfold dictGet
    rcases List.mem_cons.mp hp with heq | hp'
    · rw [← heq, List.find?_cons_of_pos _ (by simp)]
      rfl
    · rw [List.find?_cons_of_neg _ (by
        simp only [decide_eq_true_eq]
        intro hc
        exact hnd.1 (by rw [hc]; exact List.mem_map.mpr ⟨p, hp', rfl⟩))]
      have := ih hnd.2 p hp'
      unfold dictGet at this
      exact this

theorem filterMap_eq_map_of_some {α β : Type} (f : α → Option β) (g : α → β) :
    ∀ (l : List α), (∀ x ∈ l, f x = some (g x)) → l.filterMap f = l.map g := by
  intro l
  induction l with
  | nil => intro _; rfl
  | cons x t ih =>
    intro h
    rw [List.filterMap_cons_some (h x (List.mem_cons_self x t)),
      List.map_cons, ih (fun y hy => h y (List.mem_cons_of_mem x hy))]

theorem sortState_spec (deps : List (String × List String))
    (hself : ∀ n l, dictGet deps n = some l → n ∉ l) :
    SortInv deps [] (sortStateWithFuel deps (deps.length + 1)).1
      (sortStateWithFuel deps (deps.length + 1)).2 ∧
    ∀ k ∈ deps.map Prod.fst, k ∈ (sortStateWithFuel deps (deps.length + 1)).1 := by
  have hgen : ∀ (ks : List String), (∀ k ∈ ks, k ∈ deps.map Prod.fst) →
      ∀ vis srt, SortInv deps [] vis srt →
      SortInv deps []
        (ks.foldl (fun st name => visitF deps (deps.length + 1) name st)
          (vis, srt)).1
        (ks.foldl (fun st name => visitF deps (deps.length + 1) name st)
          (vis, srt)).2 ∧
      vis ⊆ (ks.foldl (fun st name => visitF deps (deps.length + 1) name st)
          (vis, srt)).1 ∧
      ∀ k ∈ ks, k ∈ (ks.foldl
          (fun st name => visitF deps (deps.length + 1) name st) (vis, srt)).1 := by
    intro ks
    induction ks with
    | nil =>
      intro _ vis srt hinv
      exact ⟨hinv, fun x hx => hx, fun k hk => absurd hk (List.not_mem_nil k)⟩
    | cons k kt ih =>
      intro hks vis srt hinv
      simp only [List.foldl_cons]
      have hbound : ((deps.map Prod.fst).filter
          (fun x => x ∉ vis)).length < deps.length + 1 := by
        have h1 := List.length_filter_le (fun x => decide (x ∉ vis))
          (deps.map Prod.fst)
        rw [List.length_map] at h1
        omega
      obtain ⟨hI, hN⟩ := visitF_spec deps hself (deps.length + 1) k vis srt []
        hbound (hks k (List.mem_cons_self k kt))
        (fun s hs => absurd hs (List.not_mem_nil s)) hinv
      have hmono := (visitF_mono deps (deps.length + 1) k vis srt).1
      obtain ⟨hA, hB, hC⟩ := ih (fun x hx => hks x (List.mem_cons_of_mem k hx))
        (visitF deps (deps.length + 1) k (vis, srt)).1
        (visitF deps (deps.length + 1) k (vis, srt)).2 hI
      refine ⟨hA, fun x hx => hB (hmono hx), ?_⟩
      intro x hx
      rcases List.mem_cons.mp hx with rfl | hx'
      · exact hB hN
      · exact hC x hx'
  have hinit : SortInv deps [] [] [] := by
    refine ⟨by simp, by simp, List.nodup_nil, by simp, ?_⟩
    intro _ a b ha _
    exact absurd ha (List.not_mem_nil a)
  obtain ⟨hI, _, hC⟩ := hgen (deps.map Prod.fst) (fun k hk => hk) [] [] hinit
  exact ⟨hI, hC⟩

theorem sortState_fuel_irrel (deps : List (String × List String)) :
    ∀ f, deps.length + 1 ≤ f →
      sortStateWithFuel deps f = sortStateWithFuel deps (deps.length + 1) := by
  intro f hf
  have hgen : ∀ (ks : List String), (∀ k ∈ ks, k ∈ deps.map Prod.fst) →
      ∀ vis srt,
      ks.foldl (fun st name => visitF deps f name st) (vis, srt) =
      ks.foldl (fun st name => visitF deps (deps.length + 1) name st) (vis, srt) := by
    intro ks
    induction ks with
    | nil => intro _ vis srt; rfl
    | cons k kt ih =>
      intro hks vis srt
      simp only [List.foldl_cons]
      have hbound : ((deps.map Prod.fst).filter
          (fun x => x ∉ vis)).length ≤ deps.length := by
        have h1 := List.length_filter_le (fun x => decide (x ∉ vis))
          (deps.map Prod.fst)
        rw [List.length_map] at h1
        exact h1
      rw [visitF_fuel_eq deps f (deps.length + 1) k vis srt
        (hks k (List.mem_cons_self k kt)) (by omega) (by omega)]
      exact ih (fun x hx => hks x (List.mem_cons_of_mem k hx))
        (visitF deps (deps.length + 1) k (vis, srt)).1
        (visitF deps (deps.length + 1) k (vis, srt)).2
  exact hgen (deps.map Prod.fst) (fun k hk => hk) [] []

/-- **C4.** For every Database whose entity map is keyed by the entities' own
names without duplicates and whose dependency graph (Reference edges, self
references excluded by construction of `entityDeps`) is acyclic, the order
produced by `PostgreSQLAdapter._sort_entities_by_dependency` places every
referenced entity strictly before every entity holding a Reference to it
(provided the target entity exists in the Database, as the resolver's
`if dep in dependencies` guard requires). -/
theorem C4_dependency_order (d : Database)
    (hkeys : ∀ p ∈ d.entity_types, p.1 = p.2.en_name)
    (hnd : (d.entity_types.map Prod.fst).Nodup)
    (hacyc : DepAcyclic (buildDependencies d))
    (A B : EntityType) (rr : Reference)
    (hA : d.get_entity_type A.en_name = some A)
    (hB : d.get_entity_type B.en_name = some B)
    (hrel : Relationship.ref rr ∈ A.relationships)
    (htgt : rr.refs_to = B.en_name)
    (hns : rr.refs_to ≠ A.en_name) :
    ListBefore (PostgreSQLAdapter._sort_entities_by_dependency d) B A := by
  have hself := buildDeps_no_self d hkeys hnd
  obtain ⟨⟨hiv, _, _, _, hord⟩, hcov⟩ := sortState_spec (buildDependencies d) hself
  have hgA : dictGet (buildDependencies d) A.en_name = some (entityDeps A) := by
    rw [dictGet_buildDeps d hkeys hnd, hA]; rfl
  have hgB : dictGet (buildDependencies d) B.en_name = some (entityDeps B) := by
    rw [dictGet_buildDeps d hkeys hnd, hB]; rfl
  have hedge : depEdge (buildDependencies d) A.en_name B.en_name := by
    refine ⟨entityDeps A, hgA, ?_, ?_⟩
    · rw [← htgt]
      exact mem_entityDeps A rr hrel hns
    · rw [hgB]; rfl
  have hAkeys : A.en_name ∈ (buildDependencies d).map Prod.fst :=
    dictGet_isSome_mem _ _ (by rw [hgA]; rfl)
  have hAsrt : A.en_name ∈ (sortStateWithFuel (buildDependencies d)
      ((buildDependencies d).length + 1)).2 := by
    rcases (hiv A.en_name).mp (hcov A.en_name hAkeys) with h | h
    · exact h
    · exact absurd h (List.not_mem_nil _)
  obtain ⟨l1, l2, l3, hsplit⟩ := hord hacyc A.en_name B.en_name hAsrt hedge
  show ListBefore (((sortStateWithFuel (buildDependencies d)
      ((buildDependencies d).length + 1)).2).filterMap d.get_entity_type) B A
  rw [hsplit, List.filterMap_append, List.filterMap_append,
    List.filterMap_cons_some hB, List.filterMap_cons_some hA]
  exact ⟨l1.filterMap d.get_entity_type, l2.filterMap d.get_entity_type,
    l3.filterMap d.get_entity_type, rfl⟩

theorem dbC4_acyclic : DepAcyclic (buildDependencies dbC4) := by
  have hbd : buildDependencies dbC4 = [("address", ["person"]), ("person", [])] := by
    decide
  rw [hbd]
  have hchar : ∀ a b,
      depEdge [("address", ["person"]), ("person", [])] a b →
      a = "address" ∧ b = "person" := by
    rintro a b ⟨l, hl, hbl, -⟩
    by_cases h1 : a = "address"
    · subst h1
      unfold dictGet at hl
      rw [List.find?_cons_of_pos _ (by decide)] at hl
      have hlv : (["person"] : List String) = l := Option.some.inj (by simpa using hl)
      rw [← hlv, List.mem_singleton] at hbl
      exact ⟨rfl, hbl⟩
    · by_cases h2 : a = "person"
      · subst h2
        unfold dictGet at hl
        rw [List.find?_cons_of_neg _ (by decide), List.find?_cons_of_pos _ (by decide)]
          at hl
        have hlv : ([] : List String) = l := Option.some.inj (by simpa using hl)
        rw [← hlv] at hbl
        cases hbl
      · exfalso
        unfold dictGet at hl
        rw [List.find?_cons_of_neg _ (by
            simp only [decide_eq_true_eq]
            exact fun h => h1 h.symm),
          List.find?_cons_of_neg _ (by
            simp only [decide_eq_true_eq]
            exact fun h => h2 h.symm)] at hl
        cases hl
  intro n hn
  have hglobal : ∀ a b,
      Relation.TransGen (depEdge [("address", ["person"]), ("person", [])]) a b →
      a = "address" ∧ b = "person" := by
    intro a b h
    induction h with
    | single h1 => exact hchar _ _ h1
    | tail hab hbc ih =>
      obtain ⟨_, hmid⟩ := ih
      obtain ⟨hc1, hc2⟩ := hchar _ _ hbc
      rw [hmid] at hc1
      exact absurd hc1 (by decide)
  obtain ⟨h1, h2⟩ := hglobal n n hn
  rw [h1] at h2
  exact absurd h2 (by decide)

/-- C4 witness: in `dbC4`, `address` (declared first) references `person`;
the hypotheses hold and the resolver emits `person` strictly before
`address`. -/
theorem C4_witness :
    (∀ p ∈ dbC4.entity_types, p.1 = p.2.en_name) ∧
    (dbC4.entity_types.map Prod.fst).Nodup ∧
    ListBefore (PostgreSQLAdapter._sort_entities_by_dependency dbC4)
      entPersC4 entAddrC4 :=
  ⟨by decide, by decide,
    C4_dependency_order dbC4 (by decide) (by decide) dbC4_acyclic
      entAddrC4 entPersC4 refC4 (by decide) (by decide) (by decide)
      (by decide) (by decide)⟩

/-- **C6.** On every Database whose entity map is keyed by the entities' own
names without duplicates — cyclic reference graphs included, no acyclicity
assumed — the fuelled `visit` recursion of
`PostgreSQLAdapter._sort_entities_by_dependency` is insensitive to any fuel
beyond `|dependencies| + 1` (the recursion bottoms out: the visited set
makes the depth bounded, so the traversal terminates), and the produced
order contains every entity of the Database exactly once (it is a
permutation of the entity list). -/
theorem C6_terminates_each_entity_once (d : Database)
    (hkeys : ∀ p ∈ d.entity_types, p.1 = p.2.en_name)
    (hnd : (d.entity_types.map Prod.fst).Nodup) :
    (∀ fuel, (buildDependencies d).length + 1 ≤ fuel →
      sortStateWithFuel (buildDependencies d) fuel
        = sortStateWithFuel (buildDependencies d)
            ((buildDependencies d).length + 1)) ∧
    (PostgreSQLAdapter._sort_entities_by_dependency d).Perm
      (d.entity_types.map (fun p => p.2)) := by
  constructor
  · exact fun fuel hf => sortState_fuel_irrel (buildDependencies d) fuel hf
  · have hself := buildDeps_no_self d hkeys hnd
    obtain ⟨⟨hiv, _, hsnd, hksS, _⟩, hcov⟩ :=
      sortState_spec (buildDependencies d) hself
    have hmemiff : ∀ x, x ∈ (sortStateWithFuel (buildDependencies d)
        ((buildDependencies d).length + 1)).2 ↔
        x ∈ (buildDependencies d).map Prod.fst := by
      intro x
      constructor
      · intro hx
        exact hksS x ((hiv x).mpr (Or.inl hx))
      · intro hx
        rcases (hiv x).mp (hcov x hx) with h | h
        · exact h
        · exact absurd h (List.not_mem_nil x)
    have hkeysmap : (buildDependencies d).map Prod.fst
        = d.entity_types.map (fun p => p.2.en_name) := by
      rw [buildDependencies_eq d hkeys hnd, List.map_map]
      rfl
    have hkeysnd : ((buildDependencies d).map Prod.fst).Nodup := by
      rw [hkeysmap,
        List.map_congr_left (fun p hp => (hkeys p hp).symm)]
      exact hnd
    have hperm : ((sortStateWithFuel (buildDependencies d)
        ((buildDependencies d).length + 1)).2).Perm
        ((buildDependencies d).map Prod.fst) :=
      (List.perm_ext_iff_of_nodup hsnd hkeysnd).mpr hmemiff
    have hfm : ((buildDependencies d).map Prod.fst).filterMap
        (fun name => d.get_entity_type name)
        = d.entity_types.map (fun p => p.2) := by
      rw [hkeysmap, List.filterMap_map]
      apply filterMap_eq_map_of_some
      intro p hp
      show d.get_entity_type p.2.en_name = some p.2
      unfold Database.get_entity_type
      rw [← hkeys p hp]
      exact dictGet_self_of_nodup d.entity_types hnd p hp
    have htrans := hperm.filterMap (fun name => d.get_entity_type name)
    rw [hfm] at htrans
    exact htrans

/-- C6 witness: `dbC6` has a two-cycle `a ↔ b`; the hypotheses hold and the
resolver still produces each entity exactly once. -/
theorem C6_witness :
    (∀ p ∈ dbC6.entity_types, p.1 = p.2.en_name) ∧
    (dbC6.entity_types.map Prod.fst).Nodup ∧
    (PostgreSQLAdapter._sort_entities_by_dependency dbC6).Perm
      (dbC6.entity_types.map (fun p => p.2)) :=
  ⟨by decide, by decide,
    (C6_terminates_each_entity_once dbC6 (by decide) (by decide)).2⟩

-- ===========================================================================
-- Lemmas on the PostgreSQL parse pipeline (claim C5)
-- ===========================================================================

theorem parse_table_step_en_name (e : EntityType)
    (p : List (String × String × String)) (c : String) (e' : EntityType)
    (p' : List (String × String × String))
    (h : PostgreSQLAdapter._parse_table_step (some (e, p)) c = some (e', p')) :
    e'.en_name = e.en_name := by
  simp only [PostgreSQLAdapter._parse_table_step] at h
  split at h
  · simp only [Option.some.injEq, Prod.mk.injEq] at h
    obtain ⟨h1, -⟩ := h
    subst h1
    rfl
  · split at h
    · simp only [Option.some.injEq, Prod.mk.injEq] at h
      obtain ⟨h1, -⟩ := h
      subst h1
      rfl
    · split at h
      · exact Option.noConfusion h
      · simp only [Option.some.injEq, Prod.mk.injEq] at h
        obtain ⟨h1, -⟩ := h
        subst h1
        rfl
      · split at h
        · simp only [Option.some.injEq, Prod.mk.injEq] at h
          obtain ⟨h1, -⟩ := h
          subst h1
          rfl
        · simp only [Option.some.injEq, Prod.mk.injEq] at h
          obtain ⟨h1, -⟩ := h
          subst h1
          rfl

theorem parse_table_fold_none (cols : List String) :
    cols.foldl PostgreSQLAdapter._parse_table_step none = none := by
  induction cols with
  | nil => rfl
  | cons c r ih => rw [List.foldl_cons]; exact ih

theorem parse_table_en_name (tn tb : String) (e : EntityType)
    (p : List (String × String × String))
    (h : PostgreSQLAdapter._parse_table tn tb = some (e, p)) :
    e.en_name = (pyLower tn) := by
  unfold PostgreSQLAdapter._parse_table at h
  have hgen : ∀ (cols : List String) (e0 : EntityType)
      (p0 : List (String × String × String)),
      cols.foldl PostgreSQLAdapter._parse_table_step (some (e0, p0))
        = some (e, p) → e.en_name = e0.en_name := by
    intro cols
    induction cols with
    | nil =>
      intro e0 p0 h0
      simp only [List.foldl_nil, Option.some.injEq, Prod.mk.injEq] at h0
      rw [← h0.1]
    | cons c r ih =>
      intro e0 p0 h0
      rw [List.foldl_cons] at h0
      cases hs : PostgreSQLAdapter._parse_table_step (some (e0, p0)) c with
      | none =>
        rw [hs, parse_table_fold_none] at h0
        exact Option.noConfusion h0
      | some q =>
        rw [hs] at h0
        obtain ⟨e1, p1⟩ := q
        rw [ih e1 p1 h0, parse_table_step_en_name e0 p0 c e1 p1 hs]
  exact hgen _ _ _ h

theorem parseTables_pend_prefix :
    ∀ (tables : List (String × String)) (db : Database)
      (pend : List (String × String × String)) (db' : Database)
      (pend' : List (String × String × String)),
      PostgreSQLAdapter.parseTables tables db pend = some (db', pend') →
      ∃ s, pend' = pend ++ s := by
  intro tables
  induction tables with
  | nil =>
    intro db pend db' pend' h
    simp only [PostgreSQLAdapter.parseTables, Option.some.injEq,
      Prod.mk.injEq] at h
    exact ⟨[], by rw [← h.2, List.append_nil]⟩
  | cons t rest ih =>
    intro db pend db' pend' h
    obtain ⟨tn, tb⟩ := t
    simp only [PostgreSQLAdapter.parseTables] at h
    cases hp : PostgreSQLAdapter._parse_table tn tb with
    | none => rw [hp] at h; exact Option.noConfusion h
    | some q =>
      rw [hp] at h
      obtain ⟨e1, p1⟩ := q
      obtain ⟨s, hs⟩ := ih _ _ _ _ h
      exact ⟨p1 ++ s, by rw [hs, List.append_assoc]⟩

theorem parseTables_untouched :
    ∀ (tables : List (String × String)) (db : Database)
      (pend : List (String × String × String)) (db' : Database)
      (pend' : List (String × String × String)),
      PostgreSQLAdapter.parseTables tables db pend = some (db', pend') →
      ∀ n e, dictGet db.entity_types n = some e →
        n ∉ tables.map (fun q => pyLower q.1) →
        dictGet db'.entity_types n = some e := by
  intro tables
  induction tables with
  | nil =>
    intro db pend db' pend' h n e hn _
    simp only [PostgreSQLAdapter.parseTables, Option.some.injEq,
      Prod.mk.injEq] at h
    rw [← h.1]
    exact hn
  | cons t rest ih =>
    intro db pend db' pend' h n e hn hnot
    obtain ⟨tn, tb⟩ := t
    have hnot1 : n ≠ (pyLower tn) := fun hc =>
      hnot (by rw [List.map_cons, List.mem_cons]; exact Or.inl hc)
    have hnot2 : n ∉ rest.map (fun q => pyLower q.1) := fun hc =>
      hnot (by rw [List.map_cons, List.mem_cons]; exact Or.inr hc)
    simp only [PostgreSQLAdapter.parseTables] at h
    cases hp : PostgreSQLAdapter._parse_table tn tb with
    | none => rw [hp] at h; exact Option.noConfusion h
    | some q =>
      rw [hp] at h
      obtain ⟨e1, p1⟩ := q
      refine ih _ _ _ _ h n e ?_ hnot2
      show dictGet (dictAssign db.entity_types e1.en_name e1) n = some e
      rw [dictGet_assign_ne]
      · exact hn
      · rw [parse_table_en_name tn tb e1 p1 hp]
        exact hnot1

theorem parseTables_success :
    ∀ (tables : List (String × String)) (db : Database)
      (pend : List (String × String × String)) (db' : Database)
      (pend' : List (String × String × String)),
      PostgreSQLAdapter.parseTables tables db pend = some (db', pend') →
      ∀ tn tb, (tn, tb) ∈ tables →
        ∃ e p, PostgreSQLAdapter._parse_table tn tb = some (e, p) := by
  intro tables
  induction tables with
  | nil => intro db pend db' pend' _ tn tb hmem; cases hmem
  | cons t rest ih =>
    intro db pend db' pend' h tn tb hmem
    obtain ⟨sn, sb⟩ := t
    simp only [PostgreSQLAdapter.parseTables] at h
    cases hp : PostgreSQLAdapter._parse_table sn sb with
    | none => rw [hp] at h; exact Option.noConfusion h
    | some q =>
      rw [hp] at h
      obtain ⟨e1, p1⟩ := q
      rcases List.mem_cons.mp hmem with heq | hmem'
      · obtain ⟨h1, h2⟩ := Prod.mk.injEq .. ▸ heq
        subst h1; subst h2
        exact ⟨e1, p1, hp⟩
      · exact ih _ _ _ _ h tn tb hmem'

theorem parseTables_at :
    ∀ (X : List (String × String)) (tn tb : String)
      (Y : List (String × String)) (db : Database)
      (pend : List (String × String × String)) (db' : Database)
      (pend' : List (String × String × String)),
      PostgreSQLAdapter.parseTables (X ++ (tn, tb) :: Y) db pend
        = some (db', pend') →
      ∀ e pA, PostgreSQLAdapter._parse_table tn tb = some (e, pA) →
      (pyLower tn) ∉ Y.map (fun q => pyLower q.1) →
      dictGet db'.entity_types (pyLower tn) = some e ∧ ∀ x ∈ pA, x ∈ pend' := by
  intro X
  induction X with
  | nil =>
    intro tn tb Y db pend db' pend' h e pA he hnot
    rw [List.nil_append] at h
    simp only [PostgreSQLAdapter.parseTables] at h
    rw [he] at h
    constructor
    · refine parseTables_untouched Y _ _ _ _ h (pyLower tn) e ?_ hnot
      show dictGet (dictAssign db.entity_types e.en_name e) (pyLower tn) = some e
      rw [parse_table_en_name tn tb e pA he]
      exact dictGet_assign_self _ _ _
    · intro x hx
      obtain ⟨s, hs⟩ := parseTables_pend_prefix Y _ _ _ _ h
      rw [hs]
      exact List.mem_append_left s (List.mem_append_right pend hx)
  | cons t X' ih =>
    intro tn tb Y db pend db' pend' h e pA he hnot
    obtain ⟨sn, sb⟩ := t
    rw [List.cons_append] at h
    simp only [PostgreSQLAdapter.parseTables] at h
    cases hp : PostgreSQLAdapter._parse_table sn sb with
    | none => rw [hp] at h; exact Option.noConfusion h
    | some q =>
      rw [hp] at h
      obtain ⟨e1, p1⟩ := q
      exact ih tn tb Y _ _ _ _ h e pA he hnot

theorem resolve_cons_some (db : Database) (en rn tgt : String)
    (rest : List (String × String × String)) (entity tEnt : EntityType)
    (hE : db.get_entity_type en = some entity)
    (hT : db.get_entity_type tgt = some tEnt) :
    PostgreSQLAdapter._resolve_references db ((en, rn, tgt) :: rest)
      = PostgreSQLAdapter._resolve_references
          { db with entity_types := (dictAssign db.entity_types en
              (entity.add_relationship (.ref (mkPendingRef entity rn tgt)))) }
          rest := by
  simp only [PostgreSQLAdapter._resolve_references]
  rw [hE, hT]

theorem resolve_cons_skip (db : Database) (en rn tgt : String)
    (rest : List (String × String × String))
    (h : db.get_entity_type en = none ∨ db.get_entity_type tgt = none) :
    PostgreSQLAdapter._resolve_references db ((en, rn, tgt) :: rest)
      = PostgreSQLAdapter._resolve_references db rest := by
  simp only [PostgreSQLAdapter._resolve_references]
  rcases h with h | h
  · rw [h]
  · cases hE : db.get_entity_type en with
    | none => rfl
    | some entity => rw [h]

theorem resolve_stable :
    ∀ (pend : List (String × String × String)) (db : Database) (n : String)
      (e : EntityType), dictGet db.entity_types n = some e →
      ∃ e', dictGet (PostgreSQLAdapter._resolve_references db pend).entity_types n
          = some e' ∧ e'.attributes = e.attributes ∧
        ∃ ext, e'.relationships = e.relationships ++ ext := by
  intro pend
  induction pend with
  | nil =>
    intro db n e hn
    exact ⟨e, hn, rfl, [], (List.append_nil _).symm⟩
  | cons q rest ih =>
    intro db n e hn
    obtain ⟨en, rn, tgt⟩ := q
    cases hE : db.get_entity_type en with
    | none =>
      rw [resolve_cons_skip db en rn tgt rest (Or.inl hE)]
      exact ih db n e hn
    | some entity =>
      cases hT : db.get_entity_type tgt with
      | none =>
        rw [resolve_cons_skip db en rn tgt rest (Or.inr hT)]
        exact ih db n e hn
      | some tEnt =>
        rw [resolve_cons_some db en rn tgt rest entity tEnt hE hT]
        by_cases hne : n = en
        · subst hne
          obtain rfl : e = entity := by
            unfold Database.get_entity_type at hE
            rw [hn] at hE
            exact Option.some.inj hE
          obtain ⟨e', h1, h2, ext, h3⟩ := ih
            { db with entity_types := (dictAssign db.entity_types n
                (e.add_relationship (.ref (mkPendingRef e rn tgt)))) }
            n (e.add_relationship (.ref (mkPendingRef e rn tgt)))
            (dictGet_assign_self _ _ _)
          refine ⟨e', h1, h2, Relationship.ref (mkPendingRef e rn tgt) :: ext, ?_⟩
          rw [h3]
          show (e.relationships ++ [Relationship.ref (mkPendingRef e rn tgt)]) ++ ext
            = e.relationships ++ (Relationship.ref (mkPendingRef e rn tgt) :: ext)
          rw [List.append_assoc]
          rfl
        · obtain ⟨e', h1, h2, ext, h3⟩ := ih
            { db with entity_types := (dictAssign db.entity_types en
                (entity.add_relationship (.ref (mkPendingRef entity rn tgt)))) }
            n e ((dictGet_assign_ne db.entity_types en n _ hne).trans hn)
          exact ⟨e', h1, h2, ext, h3⟩

theorem resolve_append :
    ∀ (p1 p2 : List (String × String × String)) (db : Database),
      PostgreSQLAdapter._resolve_references db (p1 ++ p2)
        = PostgreSQLAdapter._resolve_references
            (PostgreSQLAdapter._resolve_references db p1) p2 := by
  intro p1
  induction p1 with
  | nil => intro p2 db; rfl
  | cons q rest ih =>
    intro p2 db
    obtain ⟨en, rn, tgt⟩ := q
    rw [List.cons_append]
    cases hE : db.get_entity_type en with
    | none =>
      rw [resolve_cons_skip db en rn tgt (rest ++ p2) (Or.inl hE),
        resolve_cons_skip db en rn tgt rest (Or.inl hE)]
      exact ih p2 db
    | some entity =>
      cases hT : db.get_entity_type tgt with
      | none =>
        rw [resolve_cons_skip db en rn tgt (rest ++ p2) (Or.inr hT),
          resolve_cons_skip db en rn tgt rest (Or.inr hT)]
        exact ih p2 db
      | some tEnt =>
        rw [resolve_cons_some db en rn tgt (rest ++ p2) entity tEnt hE hT,
          resolve_cons_some db en rn tgt rest entity tEnt hE hT]
        exact ih p2 _

theorem resolve_adds (db : Database) (en rn tgt : String)
    (rest : List (String × String × String)) (eCur : EntityType)
    (hE : db.get_entity_type en = some eCur)
    (hT : (db.get_entity_type tgt).isSome = true) :
    ∃ eF, dictGet (PostgreSQLAdapter._resolve_references db
        ((en, rn, tgt) :: rest)).entity_types en = some eF ∧
      Relationship.ref (mkPendingRef eCur rn tgt) ∈ eF.relationships := by
  cases hT2 : db.get_entity_type tgt with
  | none => rw [hT2] at hT; cases hT
  | some tEnt =>
    rw [resolve_cons_some db en rn tgt rest eCur tEnt hE hT2]
    obtain ⟨e', h1, h2, ext, h3⟩ := resolve_stable rest
      { db with entity_types := (dictAssign db.entity_types en
          (eCur.add_relationship (.ref (mkPendingRef eCur rn tgt)))) }
      en (eCur.add_relationship (.ref (mkPendingRef eCur rn tgt)))
      (dictGet_assign_self _ _ _)
    refine ⟨e', h1, ?_⟩
    rw [h3]
    refine List.mem_append_left ext ?_
    show Relationship.ref (mkPendingRef eCur rn tgt)
      ∈ eCur.relationships ++ [Relationship.ref (mkPendingRef eCur rn tgt)]
    exact List.mem_append_right _ (List.mem_singleton.mpr rfl)

theorem mkPendingRef_congr (e e' : EntityType) (h : e.attributes = e'.attributes)
    (rn tgt : String) : mkPendingRef e rn tgt = mkPendingRef e' rn tgt := by
  unfold mkPendingRef EntityType.get_attribute
  rw [h]

/-- **C5.** Forward references resolve via two-pass import: whenever the
comment-stripped DDL splits into CREATE TABLE statements with table `An`
appearing strictly before table `Bn` (duplicate-free table names), parsing
table `An` recorded a pending `(source, fk column, target)` tuple naming
`Bn` as target, and `PostgreSQLAdapter.parse` succeeds, then the parsed
Database's entity for `An` holds a Reference relationship targeting `Bn`
with required-one cardinality and `is_optional` taken from the foreign-key
column's attribute (`mkPendingRef`), even though `Bn`'s CREATE TABLE
appears after `An`'s. -/
theorem C5_forward_references (ddl dbn : String)
    (l1 l2 l3 : List (String × String)) (An Ab Bn Bb : String)
    (hsplit : PostgreSQLAdapter._extract_create_tables
        (PostgreSQLAdapter._remove_comments ddl)
      = (l1 ++ (An, Ab) :: l2) ++ (Bn, Bb) :: l3)
    (hnd : ((PostgreSQLAdapter._extract_create_tables
        (PostgreSQLAdapter._remove_comments ddl)).map
          (fun q => pyLower q.1)).Nodup)
    (db : Database)
    (hok : PostgreSQLAdapter.parse ddl dbn = some db)
    (eA : EntityType) (pA : List (String × String × String))
    (hA : PostgreSQLAdapter._parse_table An Ab = some (eA, pA))
    (fk tgt : String)
    (hfk : ((pyLower An), fk, tgt) ∈ pA)
    (htgt : tgt = (pyLower Bn)) :
    ∃ e, db.get_entity_type (pyLower An) = some e ∧
      Relationship.ref (mkPendingRef eA fk tgt) ∈ e.relationships := by
  -- decompose the nodup hypothesis along the split
  rw [hsplit] at hnd
  simp only [List.map_append, List.map_cons] at hnd
  rw [List.append_assoc] at hnd
  obtain ⟨-, hnd2, hdisj⟩ := List.nodup_append.mp hnd
  rw [List.cons_append, List.nodup_cons] at hnd2
  have hAnotRest : (pyLower An) ∉ l2.map (fun q => pyLower q.1)
      ++ (pyLower Bn) :: l3.map (fun q => pyLower q.1) := hnd2.1
  obtain ⟨-, hnd3, -⟩ := List.nodup_append.mp hnd2.2
  rw [List.nodup_cons] at hnd3
  have hBnotl3 : (pyLower Bn) ∉ l3.map (fun q => pyLower q.1) := hnd3.1
  have hAnotY : (pyLower An) ∉ (l2 ++ (Bn, Bb) :: l3).map (fun q => pyLower q.1) := by
    rw [List.map_append, List.map_cons]
    exact hAnotRest
  -- open up `parse`
  simp only [PostgreSQLAdapter.parse] at hok
  cases hPT : PostgreSQLAdapter.parseTables
      (PostgreSQLAdapter._extract_create_tables
        (PostgreSQLAdapter._remove_comments ddl))
      { db_name := dbn, db_type := .RELATIONAL } [] with
  | none => rw [hPT] at hok; exact Option.noConfusion hok
  | some q =>
    rw [hPT] at hok
    obtain ⟨db0, pendAll⟩ := q
    obtain rfl : PostgreSQLAdapter._resolve_references db0 pendAll = db :=
      Option.some.inj hok
    rw [hsplit] at hPT
    -- B's table also parsed successfully
    obtain ⟨eB, pB, hBp⟩ := parseTables_success _ _ _ _ _ hPT Bn Bb
      (List.mem_append_right _ (List.mem_cons_self _ _))
    -- B's entity is present in the pre-resolution database
    obtain ⟨hB0, -⟩ := parseTables_at (l1 ++ (An, Ab) :: l2) Bn Bb l3
      _ _ _ _ hPT eB pB hBp hBnotl3
    -- A's entity and pending tuple
    rw [List.append_assoc] at hPT
    obtain ⟨hA0, hpend⟩ := parseTables_at l1 An Ab (l2 ++ (Bn, Bb) :: l3)
      _ _ _ _ hPT eA pA hA hAnotY
    have hfk0 : ((pyLower An), fk, tgt) ∈ pendAll := hpend _ hfk
    -- split the pending list at our tuple and stabilize over the prefix
    obtain ⟨P, S, hPS⟩ := List.append_of_mem hfk0
    rw [hPS, resolve_append]
    obtain ⟨eMid, hMid, hMattr, -⟩ := resolve_stable P db0 (pyLower An) eA hA0
    obtain ⟨eBMid, hBMid, -⟩ := resolve_stable P db0 (pyLower Bn) eB hB0
    obtain ⟨eF, hF1, hF2⟩ := resolve_adds
      (PostgreSQLAdapter._resolve_references db0 P) (pyLower An) fk tgt S eMid
      hMid
      (by
        rw [htgt]
        show (dictGet (PostgreSQLAdapter._resolve_references
          db0 P).entity_types (pyLower Bn)).isSome = true
        rw [hBMid]
        rfl)
    refine ⟨eF, hF1, ?_⟩
    rw [mkPendingRef_congr eA eMid hMattr.symm fk tgt]
    exact hF2

set_option maxRecDepth 200000 in
/-- C5 witness: in `ddlC5` the `address` table references `person`, whose
CREATE TABLE appears later; parsing succeeds and the `address` entity holds
the Reference targeting `person` with `is_optional` taken from the
`person_id` attribute. -/
theorem C5_witness :
    PostgreSQLAdapter.parse ddlC5 "db" = some dbC5 ∧
    (pyLower "address", "person_id", "person") ∈ pAC5 ∧
    (∃ e, dbC5.get_entity_type (pyLower "address") = some e ∧
      Relationship.ref (mkPendingRef eAC5 "person_id" "person")
        ∈ e.relationships) :=
  ⟨by decide, by decide,
    C5_forward_references ddlC5 "db" [] [] [] "address" bodyAC5 "person" bodyBC5
      (by decide) (by decide) dbC5 (by decide) eAC5 pAC5 (by decide)
      "person_id" "person" (by decide) (by decide)⟩

-- ===========================================================================
-- Round-trip lemmas for `from_dict ∘ to_dict`
-- ===========================================================================

theorem pt_value_rt (pt : PrimitiveType) : primitiveTypeFromValue pt.value = pt := by
  cases pt <;> rfl

theorem kind_value_rt (k : EntityKind) : entityKindFromValue k.value = k := by
  cases k <;> rfl

theorem keyType_value_rt (k : KeyType) : keyTypeFromValue k.value = k := by
  cases k <;> rfl

theorem card_value_rt (c : Cardinality) : Cardinality.from_symbol c.value = c := by
  cases c <;> rfl

theorem dbType_value_rt (t : DatabaseType) : databaseTypeFromValue t.value = some t := by
  cases t <;> rfl

theorem normInt_eq (o : Option Int) :
    normInt o = if truthyInt o then some (o.getD 0) else none := by
  rcases o with _ | n
  · rfl
  · by_cases h : n = 0 <;> simp [normInt, truthyInt, h]

theorem normStr_eq (o : Option String) :
    normStr o = if truthyStr o then some (o.getD "") else none := by
  rcases o with _ | s
  · rfl
  · by_cases h : s = "" <;> simp [normStr, truthyStr, h]

theorem truthyInt_normInt (o : Option Int) : truthyInt (normInt o) = truthyInt o := by
  unfold normInt
  by_cases h : truthyInt o = true
  · rw [if_pos h]
  · rw [if_neg h]
    have h0 : truthyInt o = false := by simpa using h
    rw [h0]
    rfl

theorem truthyStr_normStr (o : Option String) : truthyStr (normStr o) = truthyStr o := by
  unfold normStr
  by_cases h : truthyStr o = true
  · rw [if_pos h]
  · rw [if_neg h]
    have h0 : truthyStr o = false := by simpa using h
    rw [h0]
    rfl

theorem normInt_of_truthy {o : Option Int} (h : truthyInt o = true) : normInt o = o := by
  simp [normInt, h]

theorem normStr_of_truthy {o : Option String} (h : truthyStr o = true) : normStr o = o := by
  simp [normStr, h]

theorem dtype_rt (dt : DataType) :
    Database._create_dtype dt.to_dict = some (normDtype dt) := by
  induction dt with
  | primitive pt ml pr sc =>
    by_cases hml : truthyInt ml <;> by_cases hpr : truthyInt pr <;>
      by_cases hsc : truthyInt sc <;>
      simp [DataType.to_dict, Database._create_dtype, hml, hpr, hsc, dictGet,
        jIntOpt, normDtype, pt_value_rt, normInt_eq]
  | list el ih =>
    simp only [DataType.to_dict, Database._create_dtype]
    show (match Database._create_dtype el.to_dict with
          | some d => some (DataType.list d)
          | none => none) = some (normDtype (DataType.list el))
    rw [ih]
    rfl
  | set el ih =>
    simp only [DataType.to_dict, Database._create_dtype]
    show (match Database._create_dtype el.to_dict with
          | some d => some (DataType.set d)
          | none => none) = some (normDtype (DataType.set el))
    rw [ih]
    rfl
  | map kt vt ihk ihv =>
    simp only [DataType.to_dict, Database._create_dtype]
    show (match Database._create_dtype kt.to_dict, Database._create_dtype vt.to_dict with
          | some k, some v => some (DataType.map k v)
          | _, _ => none) = some (normDtype (DataType.map kt vt))
    rw [ihk, ihv]
    rfl

theorem dtype_norm_to_dict (dt : DataType) : (normDtype dt).to_dict = dt.to_dict := by
  induction dt with
  | primitive pt ml pr sc =>
    simp only [normDtype, DataType.to_dict, truthyInt_normInt]
    by_cases hml : truthyInt ml <;> by_cases hpr : truthyInt pr <;>
      by_cases hsc : truthyInt sc <;>
      simp [hml, hpr, hsc, normInt_of_truthy]
  | list el ih => simp [normDtype, DataType.to_dict, ih]
  | set el ih => simp [normDtype, DataType.to_dict, ih]
  | map kt vt ihk ihv => simp [normDtype, DataType.to_dict, ihk, ihv]

theorem attr_rt (a : Attribute) :
    Database._create_attr a.to_dict = some (normAttr a) := by
  by_cases hd : truthyStr a.description = true
  all_goals
    simp [Attribute.to_dict, Database._create_attr, dictGet, jStrD, jStrOpt, jBoolD,
      jMetaId, hd, dtype_rt, normAttr, normStr_eq]

theorem attr_norm_to_dict (a : Attribute) : (normAttr a).to_dict = a.to_dict := by
  by_cases hd : truthyStr a.description = true <;>
    simp [Attribute.to_dict, normAttr, dtype_norm_to_dict, truthyStr_normStr, hd,
      normStr_of_truthy]

theorem filterMap_create_attr (l : List Attribute) :
    (l.map Attribute.to_dict).filterMap Database._create_attr = l.map normAttr := by
  induction l with
  | nil => rfl
  | cons a t ih => simp [List.filterMap_cons, attr_rt, ih]

theorem filterMap_comp_create_attr (l : List Attribute) :
    List.filterMap (Database._create_attr ∘ Attribute.to_dict) l = l.map normAttr := by
  induction l with
  | nil => rfl
  | cons a t ih => simp [List.filterMap_cons, Function.comp, attr_rt, ih]

theorem rel_rt (r : Relationship) :
    Database._create_rel r.to_dict = some (normRel r) := by
  cases r with
  | ref r =>
    by_cases he : r.edge_attributes = [] <;> by_cases hd : truthyStr r.description = true <;>
      simp [Relationship.to_dict, Reference.to_dict, Database._create_rel, dictGet,
        jStrD, jStrOpt, jBoolD, jMetaId, jListD, he, hd, card_value_rt,
        filterMap_create_attr, filterMap_comp_create_attr, normRel, normStr_eq]
  | agg a =>
    by_cases hd : truthyStr a.description = true <;>
      simp [Relationship.to_dict, Aggregate.to_dict, Database._create_rel, dictGet,
        jStrD, jStrOpt, jBoolD, jMetaId, hd, card_value_rt, normRel, normStr_eq]

theorem rel_norm_to_dict (r : Relationship) : (normRel r).to_dict = r.to_dict := by
  cases r with
  | ref r =>
    by_cases he : r.edge_attributes = [] <;> by_cases hd : truthyStr r.description = true <;>
      simp [Relationship.to_dict, Reference.to_dict, normRel, truthyStr_normStr, hd, he,
        normStr_of_truthy, List.map_map, Function.comp, attr_norm_to_dict]
  | agg a =>
    by_cases hd : truthyStr a.description = true <;>
      simp [Relationship.to_dict, Aggregate.to_dict, Aggregate.is_array, normRel,
        truthyStr_normStr, hd, normStr_of_truthy]

theorem filterMap_create_rel (l : List Relationship) :
    (l.map Relationship.to_dict).filterMap Database._create_rel = l.map normRel := by
  induction l with
  | nil => rfl
  | cons r t ih => simp [List.filterMap_cons, rel_rt, ih]

theorem filterMap_comp_create_rel (l : List Relationship) :
    List.filterMap (Database._create_rel ∘ Relationship.to_dict) l = l.map normRel := by
  induction l with
  | nil => rfl
  | cons r t ih => simp [List.filterMap_cons, Function.comp, rel_rt, ih]

theorem foldl_var_add_attr (l : List Attribute) (v : StructuralVariation)
    (h : (v.attributes ++ l).Nodup) :
    l.foldl StructuralVariation.add_attribute v = { v with attributes := v.attributes ++ l } := by
  induction l generalizing v with
  | nil => simp
  | cons a t ih =>
    have ha : a ∉ v.attributes := by
      intro hmem
      have hdis := (List.nodup_append.mp h).2.2
      exact hdis hmem (List.mem_cons_self a t)
    rw [List.foldl_cons,
      show v.add_attribute a = { v with attributes := v.attributes ++ [a] } from by
        unfold StructuralVariation.add_attribute
        rw [if_neg ha],
      ih _ (by simpa [List.append_assoc] using h)]
    simp [List.append_assoc]

theorem foldl_var_add_rel (l : List Relationship) (v : StructuralVariation)
    (h : (v.relationships ++ l).Nodup) :
    l.foldl StructuralVariation.add_relationship v =
      { v with relationships := v.relationships ++ l } := by
  induction l generalizing v with
  | nil => simp
  | cons a t ih =>
    have ha : a ∉ v.relationships := by
      intro hmem
      have hdis := (List.nodup_append.mp h).2.2
      exact hdis hmem (List.mem_cons_self a t)
    rw [List.foldl_cons,
      show v.add_relationship a = { v with relationships := v.relationships ++ [a] } from by
        unfold StructuralVariation.add_relationship
        rw [if_neg ha],
      ih _ (by simpa [List.append_assoc] using h)]
    simp [List.append_assoc]

theorem var_rt (v : StructuralVariation)
    (ha : (v.attributes.map normAttr).Nodup) (hr : (v.relationships.map normRel).Nodup) :
    Database._create_var v.to_dict = some (normVar v) := by
  have h1 : Database._create_var v.to_dict =
      some ((v.relationships.map normRel).foldl StructuralVariation.add_relationship
        ((v.attributes.map normAttr).foldl StructuralVariation.add_attribute
          { variation_id := v.variation_id, count := v.count,
            first_timestamp := normStr v.first_timestamp,
            last_timestamp := normStr v.last_timestamp,
            attributes := [], relationships := [] })) := by
    by_cases hf : truthyStr v.first_timestamp = true <;>
      by_cases hl : truthyStr v.last_timestamp = true <;>
      simp [StructuralVariation.to_dict, Database._create_var, dictGet, jIntD, jStrOpt,
        jListD, hf, hl, filterMap_create_attr, filterMap_comp_create_attr,
        filterMap_create_rel, filterMap_comp_create_rel, normStr_eq]
  rw [h1, foldl_var_add_attr _ _ (by simpa using ha),
    foldl_var_add_rel _ _ (by simpa using hr)]
  simp [normVar]

theorem var_norm_to_dict (v : StructuralVariation) :
    (normVar v).to_dict = v.to_dict := by
  by_cases hf : truthyStr v.first_timestamp = true <;>
    by_cases hl : truthyStr v.last_timestamp = true <;>
    simp [StructuralVariation.to_dict, normVar, truthyStr_normStr, hf, hl,
      normStr_of_truthy, List.map_map, Function.comp, attr_norm_to_dict,
      rel_norm_to_dict]

theorem attr_set_is_key_eta (a : Attribute) (h : a.is_key = true) :
    { a with is_key := true } = a := by
  cases a
  subst h
  rfl

theorem find?_attr_map_norm (l : List Attribute) (n : String) :
    (l.map normAttr).find? (fun a => a.attr_name = n) =
      (l.find? (fun a => a.attr_name = n)).map normAttr := by
  induction l with
  | nil => rfl
  | cons a t ih =>
    by_cases han : a.attr_name = n
    · rw [List.map_cons, List.find?_cons_of_pos _ (by simpa [normAttr] using han),
        List.find?_cons_of_pos _ (by simpa using han)]
      rfl
    · rw [List.map_cons, List.find?_cons_of_neg _ (by simpa [normAttr] using han),
        List.find?_cons_of_neg _ (by simpa using han)]
      exact ih

theorem get_attribute_name {e : EntityType} {n : String} {a : Attribute}
    (h : e.get_attribute n = some a) : a.attr_name = n := by
  unfold EntityType.get_attribute at h
  have := List.find?_some h
  simpa using this

theorem setIsKeyFirst_noop (l : List Attribute) (n : String)
    (h : ∀ a, l.find? (fun a => a.attr_name = n) = some a → a.is_key = true) :
    setIsKeyFirst l n = l := by
  induction l with
  | nil => rfl
  | cons a t ih =>
    by_cases han : a.attr_name = n
    · unfold setIsKeyFirst
      rw [if_pos han]
      rw [attr_set_is_key_eta a
        (h a (List.find?_cons_of_pos _ (by simpa using han)))]
    · unfold setIsKeyFirst
      rw [if_neg han]
      rw [ih (fun b hb => h b (by
        rw [List.find?_cons_of_neg _ (by simpa using han)]
        exact hb))]

theorem jStrEls_map_s (l : List String) : jStrEls (l.map J.s) = l := by
  induction l with
  | nil => rfl
  | cons s t ih => simp [jStrEls, List.filterMap_cons] at ih ⊢; exact ih

theorem create_key_fold (e e' : EntityType)
    (he : e'.attributes = e.attributes.map normAttr)
    (names : List String) (hnd : names.Nodup)
    (hres : ∀ n ∈ names, ((e.get_attribute n).map (fun a => a.is_key)) = some true)
    (k0 : Key) (hdisj : ∀ a ∈ k0.key_attributes, a.attr_name ∉ names) :
    (names.map J.s).foldl Database._create_key_step (k0, e') =
      ({ k0 with key_attributes := k0.key_attributes ++
          names.filterMap (fun n => (e.get_attribute n).map normAttr) }, e') := by
  induction names generalizing k0 with
  | nil => simp
  | cons n rest ih =>
    obtain ⟨a, hga, hak⟩ : ∃ a, e.get_attribute n = some a ∧ a.is_key = true := by
      have hm := hres n (by simp)
      cases hg : e.get_attribute n with
      | none => rw [hg] at hm; cases hm
      | some a => rw [hg] at hm; exact ⟨a, rfl, by simpa using hm⟩
    have hname : a.attr_name = n := get_attribute_name hga
    have hget' : e'.get_attribute n = some (normAttr a) := by
      unfold EntityType.get_attribute
      rw [he, find?_attr_map_norm]
      unfold EntityType.get_attribute at hga
      rw [hga]
      rfl
    have hnk : (normAttr a).is_key = true := hak
    have hstep : Database._create_key_step (k0, e') (J.s n) =
        ({ k0 with key_attributes := k0.key_attributes ++ [normAttr a] }, e') := by
      unfold Database._create_key_step
      simp only [hget']
      have hmem : { normAttr a with is_key := true } ∉ k0.key_attributes := by
        rw [attr_set_is_key_eta _ hnk]
        intro hm
        exact (hdisj _ hm) (by
          rw [show (normAttr a).attr_name = a.attr_name from rfl, hname]
          simp)
      have hnoop : setIsKeyFirst e'.attributes n = e'.attributes := by
        apply setIsKeyFirst_noop
        intro b hb
        have hbb : some (normAttr a) = some b := by
          unfold EntityType.get_attribute at hget'
          rw [← hget', hb]
        cases hbb
        exact hnk
      unfold Key.add_attribute
      simp only [hmem, if_false]
      rw [attr_set_is_key_eta _ hnk, hnoop]
    rw [List.map_cons, List.foldl_cons, hstep,
      ih (List.Nodup.of_cons hnd) (fun m hm => hres m (by simp [hm]))
        { k0 with key_attributes := k0.key_attributes ++ [normAttr a] }
        (by
          intro b hb
          rcases List.mem_append.mp hb with hb1 | hb2
          · intro hbr
            exact (hdisj b hb1) (by simp [hbr])
          · have : b = normAttr a := by simpa using hb2
            subst this
            rw [show (normAttr a).attr_name = a.attr_name from rfl, hname]
            exact (List.nodup_cons.mp hnd).1)]
    simp [List.filterMap_cons, hga, List.append_assoc]

theorem map_name_filterMap (e : EntityType) (names : List String)
    (hres : ∀ n ∈ names, ((e.get_attribute n).map (fun a => a.is_key)) = some true) :
    (names.filterMap (fun n => (e.get_attribute n).map normAttr)).map
      (fun a => a.attr_name) = names := by
  induction names with
  | nil => rfl
  | cons n rest ih =>
    have hm := hres n (List.mem_cons_self _ _)
    cases hg : e.get_attribute n with
    | none => rw [hg] at hm; cases hm
    | some a =>
      simp [List.filterMap_cons, hg,
        ih (fun m hmm => hres m (List.mem_cons_of_mem _ hmm)),
        show (normAttr a).attr_name = a.attr_name from rfl, get_attribute_name hg]

theorem create_key_rt (e e' : EntityType)
    (he : e'.attributes = e.attributes.map normAttr)
    (k : Key) (hk : KeyGood e k) :
    Database._create_key k.to_dict e' = (some (normKey e k), e') := by
  obtain ⟨hne, hnd, hres⟩ := hk
  have hfm_ne : k.get_attribute_names.filterMap
      (fun n => (e.get_attribute n).map normAttr) ≠ [] := by
    cases hsplit : k.get_attribute_names with
    | nil =>
      exfalso
      apply hne
      have := congrArg List.length hsplit
      simpa [Key.get_attribute_names, List.length_eq_zero] using this
    | cons n rest =>
      have hm := hres n (by rw [hsplit]; exact List.mem_cons_self _ _)
      cases hg : e.get_attribute n with
      | none => rw [hg] at hm; cases hm
      | some a => simp [List.filterMap_cons, hg]
  have hfold := create_key_fold e e' he k.get_attribute_names hnd hres
    { key_type := k.key_type, key_attributes := [], is_managed := k.is_managed,
      referenced_entity := normStr k.referenced_entity,
      referenced_attributes :=
        if truthyStr k.referenced_entity = true then k.referenced_attributes else [] }
    (fun a ha => absurd ha (by simp))
  by_cases hre : truthyStr k.referenced_entity = true
  · rw [normStr_eq, if_pos hre, if_pos hre] at hfold
    simp only [Key.to_dict, Database._create_key, hre, if_true, dictGet, List.find?,
      jBoolD, jStrOpt, jListD, jStrEls_map_s, keyType_value_rt]
    simp [keyType_value_rt, jStrEls_map_s, hfold, hfm_ne, normKey, normStr_eq, hre]
  · rw [normStr_eq, if_neg hre, if_neg hre] at hfold
    simp only [Key.to_dict, Database._create_key, hre, if_false, dictGet, List.find?,
      jBoolD, jStrOpt, jListD, jStrEls, keyType_value_rt]
    simp [keyType_value_rt, hfold, hfm_ne, normKey, normStr_eq, hre]

theorem key_norm_to_dict (e : EntityType) (k : Key) (hk : KeyGood e k) :
    (normKey e k).to_dict = k.to_dict := by
  obtain ⟨hne, hnd, hres⟩ := hk
  have hnames := map_name_filterMap e k.get_attribute_names hres
  unfold Key.get_attribute_names at hnames
  have hsolve : List.map (J.s ∘ fun a => a.attr_name)
      (List.filterMap ((fun n => Option.map normAttr (e.get_attribute n)) ∘
        fun a => a.attr_name) k.key_attributes) =
      List.map (J.s ∘ fun a => a.attr_name) k.key_attributes := by
    simp only [← List.filterMap_map, ← List.map_map]
    rw [hnames]
  by_cases hre : truthyStr k.referenced_entity = true <;>
    simp [Key.to_dict, normKey, Key.get_attribute_names, truthyStr_normStr, hre,
      normStr_of_truthy, hsolve]

theorem foldl_entity_add_attr (l : List Attribute) (e : EntityType) :
    l.foldl EntityType.add_attribute e = { e with attributes := e.attributes ++ l } := by
  induction l generalizing e with
  | nil => simp
  | cons a t ih =>
    rw [List.foldl_cons,
      show e.add_attribute a = { e with attributes := e.attributes ++ [a] } from rfl, ih]
    simp [List.append_assoc]

theorem foldl_entity_add_rel (l : List Relationship) (e : EntityType) :
    l.foldl EntityType.add_relationship e =
      { e with relationships := e.relationships ++ l } := by
  induction l generalizing e with
  | nil => simp
  | cons a t ih =>
    rw [List.foldl_cons,
      show e.add_relationship a = { e with relationships := e.relationships ++ [a] } from rfl,
      ih]
    simp [List.append_assoc]

theorem foldl_entity_add_var (l : List StructuralVariation) (e : EntityType) :
    l.foldl EntityType.add_variation e = { e with variations := e.variations ++ l } := by
  induction l generalizing e with
  | nil => simp
  | cons a t ih =>
    rw [List.foldl_cons,
      show e.add_variation a = { e with variations := e.variations ++ [a] } from rfl, ih]
    simp [List.append_assoc]

theorem filterMap_create_var (l : List StructuralVariation)
    (h : ∀ v ∈ l, (v.attributes.map normAttr).Nodup ∧ (v.relationships.map normRel).Nodup) :
    (l.map StructuralVariation.to_dict).filterMap Database._create_var = l.map normVar := by
  induction l with
  | nil => rfl
  | cons v t ih =>
    have hv := h v (List.mem_cons_self _ _)
    simp [List.filterMap_cons, var_rt v hv.1 hv.2,
      ih (fun w hw => h w (List.mem_cons_of_mem _ hw))]

theorem foldl_entity_key_step (e : EntityType) (ks : List Key)
    (hks : ∀ k ∈ ks, KeyGood e k)
    (base : EntityType) (hattr : base.attributes = e.attributes.map normAttr) :
    (ks.map Key.to_dict).foldl Database._create_entity_key_step base =
      { base with keys := base.keys ++ ks.map (normKey e) } := by
  induction ks generalizing base with
  | nil => simp
  | cons k rest ih =>
    rw [List.map_cons, List.foldl_cons,
      show Database._create_entity_key_step base k.to_dict = base.add_key (normKey e k) from by
        unfold Database._create_entity_key_step
        rw [create_key_rt e base hattr k (hks k (List.mem_cons_self _ _))],
      ih (fun k' hk' => hks k' (List.mem_cons_of_mem _ hk'))
        (base.add_key (normKey e k)) (by simpa [EntityType.add_key] using hattr)]
    simp [EntityType.add_key, List.append_assoc]

theorem entity_rt (e : EntityType) (hg : EntityGood e) :
    Database._create_entity e.to_dict = some (normEntity e) := by
  obtain ⟨hkeys, hvars⟩ := hg
  have h1 : Database._create_entity e.to_dict =
      some (((e.variations.map StructuralVariation.to_dict).filterMap
          Database._create_var).foldl EntityType.add_variation
        ((e.relationships.map normRel).foldl EntityType.add_relationship
          ((e.keys.map Key.to_dict).foldl Database._create_entity_key_step
            ((e.attributes.map normAttr).foldl EntityType.add_attribute
              { en_name := e.en_name, entity_kind := e.entity_kind, is_root := e.is_root,
                description := normStr e.description, meta_id := e.meta_id })))) := by
    by_cases hv : e.variations = [] <;> by_cases hd : truthyStr e.description = true <;>
      simp [EntityType.to_dict, Database._create_entity, dictGet, jStrD, jStrOpt, jBoolD,
        jListD, jMetaId, hv, hd, kind_value_rt, filterMap_comp_create_attr,
        filterMap_comp_create_rel, normStr_eq]
  rw [h1, filterMap_create_var e.variations hvars, foldl_entity_add_attr,
    foldl_entity_key_step e e.keys hkeys _ (by simp), foldl_entity_add_rel,
    foldl_entity_add_var]
  simp [normEntity]

theorem map_key_norm_to_dict (e : EntityType) (ks : List Key)
    (hks : ∀ k ∈ ks, KeyGood e k) :
    ks.map (Key.to_dict ∘ normKey e) = ks.map Key.to_dict := by
  induction ks with
  | nil => rfl
  | cons k t ih =>
    simp only [List.map_cons, Function.comp,
      key_norm_to_dict e k (hks k (List.mem_cons_self _ _))]
    rw [ih (fun k' hk' => hks k' (List.mem_cons_of_mem _ hk'))]

theorem entity_norm_to_dict (e : EntityType) (hg : EntityGood e) :
    (normEntity e).to_dict = e.to_dict := by
  obtain ⟨hkeys, hvars⟩ := hg
  have hks := map_key_norm_to_dict e e.keys hkeys
  by_cases hv : e.variations = [] <;> by_cases hd : truthyStr e.description = true <;>
    simp [EntityType.to_dict, normEntity, truthyStr_normStr, hd, hv, normStr_of_truthy,
      List.map_map, Function.comp, attr_norm_to_dict, rel_norm_to_dict, var_norm_to_dict,
      hks]

theorem foldl_rt_add_attr (l : List Attribute) (r : RelationshipType) :
    l.foldl RelationshipType.add_attribute r = { r with attributes := r.attributes ++ l } := by
  induction l generalizing r with
  | nil => simp
  | cons a t ih =>
    rw [List.foldl_cons,
      show r.add_attribute a = { r with attributes := r.attributes ++ [a] } from rfl, ih]
    simp [List.append_assoc]

theorem rel_type_rt (r : RelationshipType) :
    Database._create_rel_type r.to_dict = some (normRelType r) := by
  have h1 : Database._create_rel_type r.to_dict =
      some ((r.attributes.map normAttr).foldl RelationshipType.add_attribute
        { rel_name := r.rel_name, source_entity := r.source_entity,
          target_entity := r.target_entity, cardinality := r.cardinality,
          description := normStr r.description, meta_id := r.meta_id }) := by
    by_cases hd : truthyStr r.description = true <;>
      simp [RelationshipType.to_dict, Database._create_rel_type, dictGet, jStrD, jStrOpt,
        jMetaId, jListD, hd, card_value_rt, filterMap_comp_create_attr, normStr_eq]
  rw [h1, foldl_rt_add_attr]
  simp [normRelType]

theorem rel_type_norm_to_dict (r : RelationshipType) :
    (normRelType r).to_dict = r.to_dict := by
  by_cases hd : truthyStr r.description = true <;>
    simp [RelationshipType.to_dict, normRelType, truthyStr_normStr, hd, normStr_of_truthy,
      List.map_map, Function.comp, attr_norm_to_dict]

theorem filterMap_create_entity_pairs (l : List (String × EntityType))
    (h : ∀ p ∈ l, EntityGood p.2) :
    (l.map (fun p => p.2.to_dict)).filterMap Database._create_entity =
      l.map (fun p => normEntity p.2) := by
  induction l with
  | nil => rfl
  | cons p t ih =>
    simp [List.filterMap_cons, entity_rt p.2 (h p (List.mem_cons_self _ _)),
      ih (fun q hq => h q (List.mem_cons_of_mem _ hq))]

theorem filterMap_create_rt_pairs (l : List (String × RelationshipType)) :
    (l.map (fun p => p.2.to_dict)).filterMap Database._create_rel_type =
      l.map (fun p => normRelType p.2) := by
  induction l with
  | nil => rfl
  | cons p t ih => simp [List.filterMap_cons, rel_type_rt, ih]

theorem foldl_add_entity_type (es : List EntityType) (d : Database)
    (h : ((d.entity_types.map Prod.fst) ++ es.map (fun e => e.en_name)).Nodup) :
    es.foldl Database.add_entity_type d =
      { d with entity_types := d.entity_types ++ es.map (fun e => (e.en_name, e)) } := by
  induction es generalizing d with
  | nil => simp
  | cons e rest ih =>
    have hfresh : ¬ ((d.entity_types.any fun p => p.1 = e.en_name) = true) := by
      intro hany
      rcases List.any_eq_true.mp hany with ⟨p, hp, hpe⟩
      have hdis := (List.nodup_append.mp h).2.2
      exact hdis (List.mem_map.mpr ⟨p, hp, rfl⟩)
        (by simp [show p.1 = e.en_name from by simpa using hpe])
    rw [List.foldl_cons,
      show d.add_entity_type e = { d with entity_types := d.entity_types ++ [(e.en_name, e)] }
        from by
        unfold Database.add_entity_type dictAssign
        rw [if_neg hfresh],
      ih _ (by simpa [List.append_assoc] using h)]
    simp [List.append_assoc]

theorem foldl_add_rel_type (rs : List RelationshipType) (d : Database)
    (h : ((d.relationship_types.map Prod.fst) ++ rs.map (fun r => r.rel_name)).Nodup) :
    rs.foldl Database.add_relationship_type d =
      { d with relationship_types :=
          d.relationship_types ++ rs.map (fun r => (r.rel_name, r)) } := by
  induction rs generalizing d with
  | nil => simp
  | cons r rest ih =>
    have hfresh : ¬ ((d.relationship_types.any fun p => p.1 = r.rel_name) = true) := by
      intro hany
      rcases List.any_eq_true.mp hany with ⟨p, hp, hpe⟩
      have hdis := (List.nodup_append.mp h).2.2
      exact hdis (List.mem_map.mpr ⟨p, hp, rfl⟩)
        (by simp [show p.1 = r.rel_name from by simpa using hpe])
    rw [List.foldl_cons,
      show d.add_relationship_type r =
          { d with relationship_types := d.relationship_types ++ [(r.rel_name, r)] } from by
        unfold Database.add_relationship_type dictAssign
        rw [if_neg hfresh],
      ih _ (by simpa [List.append_assoc] using h)]
    simp [List.append_assoc]

theorem db_rt (d : Database) (hg : DatabaseGood d) :
    Database.from_dict d.to_dict = some (normDb d) := by
  obtain ⟨hename, hnodup, hrname, hrnodup, hent⟩ := hg
  have h1 : Database.from_dict d.to_dict =
      some (((d.relationship_types.map (fun p => p.2.to_dict)).filterMap
          Database._create_rel_type).foldl Database.add_relationship_type
        (((d.entity_types.map (fun p => p.2.to_dict)).filterMap
            Database._create_entity).foldl Database.add_entity_type
          { db_name := d.db_name, db_type := d.db_type, version := d.version,
            description := normStr d.description, meta_id := d.meta_id })) := by
    by_cases hrt : d.relationship_types = [] <;>
      by_cases hd : truthyStr d.description = true <;>
      (simp [Database.to_dict, Database.from_dict, dictGet, jStrD, jStrOpt, jIntD, jMetaId,
        jObjVals, hrt, hd, dbType_value_rt, normStr_eq, List.map_map, Function.comp]
       <;>
       simp only [
         show (Database._create_entity ∘ (fun p : String × J => p.2) ∘
             fun p : String × EntityType => (p.1, p.2.to_dict)) =
           (Database._create_entity ∘ fun p : String × EntityType => p.2.to_dict) from rfl,
         show (Database._create_rel_type ∘ (fun p : String × J => p.2) ∘
             fun p : String × RelationshipType => (p.1, p.2.to_dict)) =
           (Database._create_rel_type ∘ fun p : String × RelationshipType => p.2.to_dict)
           from rfl])
  rw [h1, filterMap_create_entity_pairs _ hent, filterMap_create_rt_pairs _,
    foldl_add_entity_type _ _ (by
      simpa [List.map_map, Function.comp] using hnodup),
    foldl_add_rel_type _ _ (by
      simpa [List.map_map, Function.comp] using hrnodup)]
  simp [normDb, List.map_map, Function.comp]
  exact ⟨fun a b _ => rfl, fun a b _ => rfl⟩

theorem map_entity_entries (l : List (String × EntityType))
    (hname : ∀ p ∈ l, p.1 = p.2.en_name) (h : ∀ p ∈ l, EntityGood p.2) :
    l.map (fun p => (p.2.en_name, (normEntity p.2).to_dict)) =
      l.map (fun p => (p.1, p.2.to_dict)) := by
  induction l with
  | nil => rfl
  | cons p t ih =>
    simp [entity_norm_to_dict p.2 (h p (List.mem_cons_self _ _)),
      (hname p (List.mem_cons_self _ _)).symm,
      ih (fun q hq => hname q (List.mem_cons_of_mem _ hq))
        (fun q hq => h q (List.mem_cons_of_mem _ hq))]

theorem map_rt_entries (l : List (String × RelationshipType))
    (hname : ∀ p ∈ l, p.1 = p.2.rel_name) :
    l.map (fun p => (p.2.rel_name, (normRelType p.2).to_dict)) =
      l.map (fun p => (p.1, p.2.to_dict)) := by
  induction l with
  | nil => rfl
  | cons p t ih =>
    simp [rel_type_norm_to_dict p.2, (hname p (List.mem_cons_self _ _)).symm,
      ih (fun q hq => hname q (List.mem_cons_of_mem _ hq))]

theorem normDb_to_dict (d : Database) (hg : DatabaseGood d) :
    (normDb d).to_dict = d.to_dict := by
  obtain ⟨hename, hnodup, hrname, hrnodup, hent⟩ := hg
  have he := map_entity_entries d.entity_types hename hent
  have hr := map_rt_entries d.relationship_types hrname
  by_cases hrt : d.relationship_types = [] <;>
    by_cases hd : truthyStr d.description = true <;>
    simp [Database.to_dict, normDb, truthyStr_normStr, hd, hrt, normStr_of_truthy,
      List.map_map, Function.comp, he, hr]
  all_goals
    try exact fun a b hmem =>
      ⟨(hename (a, b) hmem).symm, entity_norm_to_dict b (hent (a, b) hmem)⟩
  all_goals
    try exact ⟨fun a b hmem =>
      ⟨(hename (a, b) hmem).symm, entity_norm_to_dict b (hent (a, b) hmem)⟩,
      fun a b hmem => ⟨(hrname (a, b) hmem).symm, rel_type_norm_to_dict b⟩⟩

-- ===========================================================================
-- Claim C3: serialization round trip
-- ===========================================================================

/-- C3 (amended): the round trip is idempotent for every Database whose maps
are keyed by the owned objects' own names without duplicates and whose keys
are round-trippable (nonempty, duplicate-free member names, every member
name resolving on its entity to an attribute already marked `is_key`, and
variation contents duplicate-free after normalization); under these
hypotheses `from_dict (to_dict d)` succeeds and re-serializes to the very
same dictionary — `meta_id`s are preserved by the round trip, so no
identifier exclusion is even needed. -/
theorem C3_round_trip_idempotent (d : Database) (hg : DatabaseGood d) :
    ∃ d', Database.from_dict d.to_dict = some d' ∧ d'.to_dict = d.to_dict :=
  ⟨normDb d, db_rt d hg, normDb_to_dict d hg⟩

/-- C3 witness: the amended round-trip theorem at a concrete database with
an attribute-bearing primary key, a reference and a relationship type. -/
theorem C3_witness :
    DatabaseGood dbWC3 ∧
    ∃ d', Database.from_dict dbWC3.to_dict = some d' ∧ d'.to_dict = dbWC3.to_dict :=
  ⟨by decide, C3_round_trip_idempotent dbWC3 (by decide)⟩

/-- C3 counterexample: the round trip is not idempotent for every Database —
a PRIMARY key with no member attributes is serialized but dropped by
`_create_key` on the way back, so the re-serialized form differs (the first
entity has 1 serialized key before, 0 after), and no transient-identifier
exclusion is involved (`meta_id`s round-trip unchanged). -/
theorem C3_counterexample :
    Database.from_dict dC3.to_dict = some dC3round ∧
    firstEntityKeyCount dC3.to_dict = some 1 ∧
    firstEntityKeyCount dC3round.to_dict = some 0 ∧
    dC3round.to_dict ≠ dC3.to_dict := by
  refine ⟨rfl, rfl, rfl, ?_⟩
  intro h
  have h2 := congrArg firstEntityKeyCount h
  rw [show firstEntityKeyCount dC3.to_dict = some 1 from rfl,
      show firstEntityKeyCount dC3round.to_dict = some 0 from rfl] at h2
  cases h2

end SMEL
